import Mathlib

/-!
Shallow embedding of the dependency-injection container of cw.api.core.di
(src/src/container.ts), restricted to the parts the verified claims touch:
the registry (register / findRegistration), the recursive resolution engine
(resolveRegistration / resolveByLifecycle / resolveSingleton / resolveScoped /
instantiate), sessions (createSession / destroySession / clear), hierarchy
fallback (resolve with parent delegation and inheritance filters), the event
bus listener snapshot (emit / off), and asynchronous disposal.

Modelling conventions:
- Tokens are strings (the string-token case of ResolveToken; class tokens
  reach the same registration through the parallel by-constructor map, and
  forwardRef wrappers are outside the claims).
- A class (constructor function) is a ClassDef: an identity (cid, standing
  for JS reference identity), an optional intrinsic name, and the ordered
  list of constructor-dependency tokens that the reflect-metadata layer
  would supply (the external metadata contract of the spec).  Property
  injections, optional parameters and forwardRef-lazy thunks are not
  exercised by any claim and are not modelled.
- Instances are allocation identifiers (Nat), drawn from a fresh counter in
  the container state; this models JS object identity, which is all the
  claims compare.  The instantiate event log records construction order.
- JS exceptions are an Except value; crucially every operation returns the
  state it reached even on error, because JS exceptions unwind without
  rolling back mutations already performed.
- The recursive resolver is given an explicit fuel bound (outOfFuel is an
  artefact of the embedding, not an error of the source program); every
  recursive call decreases fuel by one.
-/

namespace DI

inductive Lifecycle where
  | singleton
  | scoped
  | transient
deriving DecidableEq, Repr

inductive ServiceType where
  | service
  | controller
  | action
  | repository
  | entity
  | middleware
deriving DecidableEq, Repr

/-- A constructible class: cid models JS reference identity, cname the
(optional) intrinsic constructor name, deps the ordered constructor
dependency tokens provided by the metadata layer. -/
structure ClassDef where
  cid : Nat
  cname : Option String
  deps : List String
deriving DecidableEq, Repr

structure InjectableOptions where
  name : Option String := none
  type : Option ServiceType := none
  lifecycle : Option Lifecycle := none
deriving DecidableEq, Repr

/-- A registry entry, including the mutable singleton cache slot of the
source InternalRegistration. -/
structure Registration where
  token : String
  type : ServiceType
  lifecycle : Lifecycle
  target : ClassDef
  singletonInstance : Option Nat := none
deriving DecidableEq, Repr

structure SessionInfo where
  id : String
  createdAt : Nat
  scope : Option String
deriving DecidableEq, Repr

structure ScopeContext where
  sessionId : String
  scope : Option String
deriving DecidableEq, Repr

structure ResolveOptions where
  sessionId : Option String := none
  scope : Option String := none
deriving DecidableEq, Repr

/-- The error taxonomy of container.ts, one constructor per throw site,
carrying the data the corresponding message interpolates. -/
inductive DIError where
  | notFound (token : String)
  | notAvailableInContainer (token : String)
  | duplicateRegistration (token : String)
  | circularDependency (path : List String)
  | lifecycleViolation (consumer : String) (dependency : String)
  | noActiveSession (token : String)
  | sessionNotFound (sessionId : String)
  | scopeMismatch (token : String) (requested : String) (owner : String)
  | outOfFuel
deriving DecidableEq, Repr

/-- JS Map get: first (and only) binding for a key. -/
def mapGet {α : Type} (m : List (String × α)) (k : String) : Option α :=
  (m.find? (fun q => q.1 == k)).map (fun q => q.2)

/-- JS Map set: overwrite in place if the key exists, else append. -/
def mapSet {α : Type} (m : List (String × α)) (k : String) (v : α) : List (String × α) :=
  if m.any (fun q => q.1 == k) then m.map (fun q => if q.1 = k then (k, v) else q)
  else m ++ [(k, v)]

/-- JS Map delete, preserving the order of the remaining entries. -/
def mapDelete {α : Type} (m : List (String × α)) (k : String) : List (String × α) :=
  m.filter (fun q => q.1 != k)

/-- The per-container mutable state of the Container class: the registry,
the live sessions with their instance caches, the session info map, the
session id counter, the AsyncLocalStorage content visible to this container
(store), plus the embedding's allocation counter and construction log. -/
structure ContState where
  regs : List Registration := []
  sessions : List (String × List (String × Nat)) := []
  sessionInfos : List (String × SessionInfo) := []
  sessionCounter : Nat := 0
  store : Option ScopeContext := none
  nextId : Nat := 0
  instantiated : List String := []
deriving DecidableEq, Repr

def emptyState : ContState := {}

def findRegistration (st : ContState) (tok : String) : Option Registration :=
  st.regs.find? (fun r => r.token == tok)

def setSlot (st : ContState) (tok : String) (v : Nat) : ContState :=
  { st with regs := st.regs.map (fun r =>
      if r.token = tok then { r with singletonInstance := some v } else r) }

def slotOf (st : ContState) (tok : String) : Option Nat :=
  (findRegistration st tok).bind (fun r => r.singletonInstance)

def sessionSet (st : ContState) (sid : String) (tok : String) (v : Nat) : ContState :=
  { st with sessions := st.sessions.map (fun p =>
      if p.1 = sid then (p.1, mapSet p.2 tok v) else p) }

def generateToken (target : ClassDef) (opts : InjectableOptions) : String :=
  opts.name.getD (target.cname.getD "anonymous")

/-- Container.register: duplicate token with a different target (different
reference identity) throws; the identical pair returns the existing
Registration; otherwise both lookup maps receive the new Registration. -/
def register (st : ContState) (target : ClassDef) (opts : InjectableOptions) :
    ContState × Except DIError Registration :=
  let token := generateToken target opts
  let ty := opts.type.getD ServiceType.service
  let lc := opts.lifecycle.getD Lifecycle.singleton
  match findRegistration st token with
  | some existing =>
    if existing.target.cid ≠ target.cid then
      (st, .error (.duplicateRegistration token))
    else
      (st, .ok existing)
  | none =>
    let reg : Registration := { token := token, type := ty, lifecycle := lc, target := target }
    ({ st with regs := st.regs ++ [reg] }, .ok reg)

def mkSessionId (k : Nat) : String := "session-" ++ Nat.repr k

/-- Container.createSession: pre-increments the counter, builds the id from
it, and registers an empty instance cache plus the SessionInfo.  createdAt
(a wall-clock timestamp in the source) is modelled as 0. -/
def createSession (st : ContState) (scope : Option String) : SessionInfo × ContState :=
  let counter := st.sessionCounter + 1
  let id := mkSessionId counter
  let info : SessionInfo := { id := id, createdAt := 0, scope := scope }
  (info, { st with
            sessionCounter := counter,
            sessions := mapSet st.sessions id [],
            sessionInfos := mapSet st.sessionInfos id info })

/-- Container.normalizeResolveOptions: fill sessionId and scope from the
ambient store, then fill a still-missing scope from the session's info. -/
def normalizeResolveOptions (st : ContState) (opts : ResolveOptions) : ResolveOptions :=
  let n1 :=
    match st.store with
    | none => opts
    | some ctx =>
      let o1 := if opts.sessionId.isNone then { opts with sessionId := some ctx.sessionId } else opts
      match ctx.scope with
      | some sc => if o1.scope.isNone then { o1 with scope := some sc } else o1
      | none => o1
  match n1.sessionId, n1.scope with
  | some sid, none =>
    match mapGet st.sessionInfos sid with
    | some info =>
      match info.scope with
      | some sc => { n1 with scope := some sc }
      | none => n1
    | none => n1
  | _, _ => n1

/-- The truthiness test options.scope && info.scope && info.scope !== options.scope. -/
def scopeConflict : Option String → Option String → Bool
  | some requested, some owner => requested != owner
  | _, _ => false

mutual

/-- Container.resolveRegistration: cycle check on the current resolution
path, then the lifetime-capture guard against the immediate parent's
lifecycle, then dispatch by lifecycle with the extended path.  The
resolve:start / resolve:success / resolve:error emissions carry no state in
the model; the instantiate log plays the role of the event trace. -/
def resolveRegistration : Nat → ContState → Registration → ResolveOptions → List String →
    Option Lifecycle → ContState × Except DIError Nat
  | 0, st, _, _, _, _ => (st, .error .outOfFuel)
  | fuel+1, st, reg, opts, path, parentLc =>
    if reg.token ∈ path then
      (st, .error (.circularDependency (path ++ [reg.token])))
    else if parentLc = some Lifecycle.singleton ∧ reg.lifecycle = Lifecycle.scoped then
      (st, .error (.lifecycleViolation (path.getLastD "root") reg.token))
    else
      resolveByLifecycle fuel st reg opts (path ++ [reg.token])

/-- Container.resolveByLifecycle: singleton and transient dispatch, and for
scoped the session id is the explicit option or the ambient store of this
container, failing NoActiveSession when neither is present. -/
def resolveByLifecycle : Nat → ContState → Registration → ResolveOptions → List String →
    ContState × Except DIError Nat
  | 0, st, _, _, _ => (st, .error .outOfFuel)
  | fuel+1, st, reg, opts, path =>
    match reg.lifecycle with
    | .singleton => resolveSingleton fuel st reg opts path
    | .scoped =>
      match (match opts.sessionId with
             | some s => some s
             | none => st.store.map (fun c => c.sessionId)) with
      | none => (st, .error (.noActiveSession reg.token))
      | some sid => resolveScoped fuel st reg sid opts path
    | .transient => instantiate fuel st reg opts path reg.lifecycle

/-- Container.resolveSingleton: a non-empty slot is returned as-is; an empty
slot instantiates and the assignment happens only after the constructor
returns, so a throwing instantiation leaves the slot untouched. -/
def resolveSingleton : Nat → ContState → Registration → ResolveOptions → List String →
    ContState × Except DIError Nat
  | 0, st, _, _, _ => (st, .error .outOfFuel)
  | fuel+1, st, reg, opts, path =>
    match reg.singletonInstance with
    | some v => (st, .ok v)
    | none =>
      match instantiate fuel st reg opts path reg.lifecycle with
      | (st', .ok v) => (setSlot st' reg.token v, .ok v)
      | (st', .error e) => (st', .error e)

/-- Container.resolveScoped: the session must exist in this container's
live-session map; a scope expectation conflicting with the session's own
tag fails; a cache hit returns the stored instance, a miss instantiates
under options carrying the session id and effective scope and stores the
result in the session cache (Map.set then Map.get returns the value just
stored, so the model returns v directly). -/
def resolveScoped : Nat → ContState → Registration → String → ResolveOptions → List String →
    ContState × Except DIError Nat
  | 0, st, _, _, _, _ => (st, .error .outOfFuel)
  | fuel+1, st, reg, sid, opts, path =>
    match mapGet st.sessions sid with
    | none => (st, .error (.sessionNotFound sid))
    | some cache =>
      let ownerScope := (mapGet st.sessionInfos sid).bind (fun i => i.scope)
      if scopeConflict opts.scope ownerScope then
        (st, .error (.scopeMismatch reg.token (opts.scope.getD "") (ownerScope.getD "")))
      else
        match mapGet cache reg.token with
        | some v => (st, .ok v)
        | none =>
          let effectiveScope := match opts.scope with
            | some s => some s
            | none => ownerScope
          let scopedOptions :=
            if opts.sessionId = some sid ∧ opts.scope = effectiveScope then opts
            else { opts with sessionId := some sid, scope := effectiveScope }
          match instantiate fuel st reg scopedOptions path reg.lifecycle with
          | (st', .ok v) => (sessionSet st' sid reg.token v, .ok v)
          | (st', .error e) => (st', .error e)

/-- Container.instantiate: resolve every constructor dependency
left-to-right (each a local-registry lookup; the source's resolveDependency
does not fall back to the parent container), then construct, allocating a
fresh instance identity and appending to the construction log (the
instantiate event). -/
def instantiate : Nat → ContState → Registration → ResolveOptions → List String → Lifecycle →
    ContState × Except DIError Nat
  | 0, st, _, _, _, _ => (st, .error .outOfFuel)
  | fuel+1, st, reg, opts, path, parentLc =>
    match resolveDeps fuel st reg.target.deps opts path parentLc with
    | (st', .error e) => (st', .error e)
    | (st', .ok _) =>
      let v := st'.nextId
      ({ st' with nextId := v + 1, instantiated := st'.instantiated ++ [reg.token] }, .ok v)

/-- The left-to-right argument construction loop of Container.instantiate,
each argument through Container.resolveDependency: local lookup failing
NotFound, then resolveRegistration with the owner's lifecycle as parent. -/
def resolveDeps : Nat → ContState → List String → ResolveOptions → List String → Lifecycle →
    ContState × Except DIError (List Nat)
  | 0, st, _, _, _, _ => (st, .error .outOfFuel)
  | _+1, st, [], _, _, _ => (st, .ok [])
  | fuel+1, st, d :: rest, opts, path, parentLc =>
    match findRegistration st d with
    | none => (st, .error (.notFound d))
    | some depReg =>
      match resolveRegistration fuel st depReg opts path parentLc with
      | (st', .error e) => (st', .error e)
      | (st', .ok v) =>
        match resolveDeps fuel st' rest opts path parentLc with
        | (st'', .error e) => (st'', .error e)
        | (st'', .ok vs) => (st'', .ok (v :: vs))

end

/-- Inheritance filters of a child container, in the normalized form
produced by normalizeChildOptions.  Tokens being strings in the model, the
constructor sets of the source collapse into the string sets (the source
adds the describeToken rendering of every filter entry to the string set as
well, so the string sets alone decide string-token inheritance). -/
structure InheritanceRules where
  includeStrings : List String := []
  excludeStrings : List String := []
deriving DecidableEq, Repr

/-- Container.canInheritToken for a string token: exclusion wins, then an
empty include list admits everything, else membership in the include list. -/
def canInheritToken (inh : Option InheritanceRules) (tok : String) : Bool :=
  match inh with
  | none => true
  | some r =>
    if tok ∈ r.excludeStrings then false
    else if r.includeStrings = [] then true
    else tok ∈ r.includeStrings

/-- One container of a parent chain: its own state plus the inheritance
rules it was created with (none when created without filters). -/
structure Frame where
  state : ContState
  inh : Option InheritanceRules := none
deriving DecidableEq, Repr

/-- Container.resolve along the parent chain (head = the container the call
was made on).  A local hit normalizes options against this container's
ambient store and resolves locally; a miss delegates to the parent with the
original, un-normalized options when the filters allow, and otherwise fails
with NotAvailableInContainer when a parent exists and NotFound at the
root. -/
def resolveChain : Nat → List Frame → String → ResolveOptions →
    List Frame × Except DIError Nat
  | _, [], tok, _ => ([], .error (.notFound tok))
  | fuel, fr :: rest, tok, opts =>
    match findRegistration fr.state tok with
    | some reg =>
      let normalized := normalizeResolveOptions fr.state opts
      let (st', r) := resolveRegistration fuel fr.state reg normalized [] none
      ({ fr with state := st' } :: rest, r)
    | none =>
      if rest ≠ [] ∧ canInheritToken fr.inh tok then
        let (rest', r) := resolveChain fuel rest tok opts
        (fr :: rest', r)
      else
        (fr :: rest, .error (if rest ≠ [] then .notAvailableInContainer tok else .notFound tok))

/-- Event bus state of one container: per event name, the subscribed
listener identities in JS Set insertion order. -/
structure Bus where
  listeners : List (String × List Nat) := []
deriving DecidableEq, Repr

/-- Container.on: create the set on first use, then Set.add (adding an
already-present member is a no-op that keeps its original position). -/
def busOn (b : Bus) (event : String) (l : Nat) : Bus :=
  match mapGet b.listeners event with
  | none => { listeners := mapSet b.listeners event [l] }
  | some ls => if l ∈ ls then b else { listeners := mapSet b.listeners event (ls ++ [l]) }

/-- Container.off: delete the listener from the event's set, dropping the
whole set when it becomes empty. -/
def busOff (b : Bus) (event : String) (l : Nat) : Bus :=
  match mapGet b.listeners event with
  | none => b
  | some ls =>
    let ls' := ls.filter (fun x => x != l)
    if ls' = [] then { listeners := mapDelete b.listeners event }
    else { listeners := mapSet b.listeners event ls' }

/-- The iteration loop of Container.emit over the Array.from snapshot: each
snapshot member is invoked in order; act is the listener body's effect on
the bus (it may subscribe or unsubscribe arbitrary listeners).  Returns the
final bus and the invocation order. -/
def emitGo (act : Nat → Bus → Bus) : List Nat → Bus → Bus × List Nat
  | [], b => (b, [])
  | l :: rest, b =>
    let b' := act l b
    let (b'', invoked) := emitGo act rest b'
    (b'', l :: invoked)

/-- Container.emit on one container: a missing or empty set invokes nothing
(the source then only cascades to the parent); otherwise the set is
snapshotted by Array.from at emission start and the snapshot is iterated. -/
def emit (act : Nat → Bus → Bus) (b : Bus) (event : String) : Bus × List Nat :=
  match mapGet b.listeners event with
  | none => (b, [])
  | some snapshot => emitGo act snapshot b

/-- Behaviour of an instance's dispose member, indexed by instance
identity: absent, synchronous return, synchronous throw, or a thenable
that settles (fulfilled or rejected) at an abstract time. -/
inductive DisposeKind where
  | noHook
  | syncOk
  | syncThrow
  | asyncOk (settle : Nat)
  | asyncReject (settle : Nat)
deriving DecidableEq, Repr

abbrev DisposeEnv := Nat → DisposeKind

def hasDisposeHook (env : DisposeEnv) (i : Nat) : Bool :=
  match env i with
  | .noHook => false
  | _ => true

/-- Container.disposeAsyncIfPossible: invoke dispose when present; a
synchronous throw is swallowed; a thenable result gets then/catch attached,
producing a promise that always fulfils at the settle time of the
original.  The model returns that settle time, or none when nothing
pending remains. -/
def disposeAsyncIfPossible (env : DisposeEnv) (i : Nat) : Option Nat :=
  match env i with
  | .noHook => none
  | .syncOk => none
  | .syncThrow => none
  | .asyncOk t => some t
  | .asyncReject t => some t

/-- Container.destroySession: iterate the session's instance cache in
insertion order (emitting a dispose event per entry and invoking the hooks,
each pending result wrapped in catch), then delete the session and its
info unconditionally; a pending value is returned only when asynchronous
disposals exist.  Outputs: new state, the instances whose dispose hook was
invoked, and the settle times backing the returned Promise.all. -/
def destroySession (env : DisposeEnv) (st : ContState) (sid : String) :
    ContState × List Nat × List Nat :=
  let entries := (mapGet st.sessions sid).getD []
  let hooks := (entries.filter (fun q => hasDisposeHook env q.2)).map (fun q => q.2)
  let pending := entries.filterMap (fun q => disposeAsyncIfPossible env q.2)
  ({ st with sessions := mapDelete st.sessions sid,
             sessionInfos := mapDelete st.sessionInfos sid },
   hooks, pending)

/-- Settle time of Promise.all over a batch of already-caught promises: the
latest settle time of the batch. -/
def promiseAllSettle (pending : List Nat) : Nat := pending.foldr max 0

/-- Container.clear: destroy every live session (over a snapshot of the
session keys), dispose every cached singleton instance, then reset the
registry maps, the session maps and the session counter to their initial
values.  Returns the collected pending settle times. -/
def clear (env : DisposeEnv) (st : ContState) : ContState × List Nat :=
  let step := fun (acc : ContState × List Nat) (sid : String) =>
    let (st', _, pending) := destroySession env acc.1 sid
    (st', acc.2 ++ pending)
  let (st1, p1) := (st.sessions.map (fun p => p.1)).foldl step (st, [])
  let singlePending := st1.regs.filterMap (fun r =>
    r.singletonInstance.bind (fun v => disposeAsyncIfPossible env v))
  ({ st1 with regs := [], sessions := [], sessionInfos := [], sessionCounter := 0 },
   p1 ++ singlePending)

/-- Head state of a container chain (the state of the container the call
was made on). -/
def headState : List Frame → ContState
  | [] => emptyState
  | fr :: _ => fr.state

/-! ### Map and state helper lemmas -/

theorem mapGet_nil {α : Type} (k : String) : mapGet ([] : List (String × α)) k = none := rfl

theorem mapGet_cons_pos {α : Type} (q : String × α) (m : List (String × α)) (k : String)
    (h : q.1 = k) : mapGet (q :: m) k = some q.2 := by
  unfold mapGet
  rw [List.find?_cons_of_pos m (show ((fun q => q.1 == k) q) = true by simp [h])]
  rfl

theorem mapGet_cons_neg {α : Type} (q : String × α) (m : List (String × α)) (k : String)
    (h : q.1 ≠ k) : mapGet (q :: m) k = mapGet m k := by
  unfold mapGet
  rw [List.find?_cons_of_neg m (show ¬((fun q => q.1 == k) q) = true by simp [h])]

theorem mapGet_overwrite_self {α : Type} (k : String) (v : α) :
    ∀ m : List (String × α), m.any (fun q => q.1 == k) →
      mapGet (m.map (fun q => if q.1 = k then (k, v) else q)) k = some v := by
  intro m
  induction m with
  | nil => intro h; simp at h
  | cons q rest ih =>
    intro h
    by_cases hq : q.1 = k
    · rw [List.map_cons, if_pos hq, mapGet_cons_pos _ _ _ rfl]
    · have hrest : rest.any (fun q => q.1 == k) := by
        rcases (by simpa using h : q.1 = k ∨ rest.any (fun q => q.1 == k)) with h1 | h2
        · exact absurd h1 hq
        · exact h2
      rw [List.map_cons, if_neg hq, mapGet_cons_neg _ _ _ hq]
      exact ih hrest

theorem mapGet_append_self {α : Type} (k : String) (v : α) :
    ∀ m : List (String × α), m.any (fun q => q.1 == k) = false →
      mapGet (m ++ [(k, v)]) k = some v := by
  intro m
  induction m with
  | nil => intro _; rw [List.nil_append, mapGet_cons_pos _ _ _ rfl]
  | cons q rest ih =>
    intro h
    rw [List.any_cons] at h
    have hq : q.1 ≠ k := by
      intro he
      rw [show (q.1 == k) = true by simp [he]] at h
      simp at h
    have hrest : rest.any (fun q => q.1 == k) = false := by
      rw [show (q.1 == k) = false by simp [hq]] at h
      simpa using h
    rw [List.cons_append, mapGet_cons_neg _ _ _ hq]
    exact ih hrest

theorem mapGet_mapSet_self {α : Type} (m : List (String × α)) (k : String) (v : α) :
    mapGet (mapSet m k v) k = some v := by
  unfold mapSet
  by_cases hany : m.any (fun q => q.1 == k)
  · rw [if_pos hany]
    exact mapGet_overwrite_self k v m hany
  · rw [if_neg hany]
    exact mapGet_append_self k v m (Bool.eq_false_iff.mpr hany)

theorem mapGet_mapDelete_self {α : Type} (m : List (String × α)) (k : String) :
    mapGet (mapDelete m k) k = none := by
  unfold mapDelete
  induction m with
  | nil => rfl
  | cons q rest ih =>
    by_cases hq : q.1 = k
    · rw [List.filter_cons, if_neg (by simp [hq])]
      exact ih
    · rw [List.filter_cons, if_pos (by simp [hq]), mapGet_cons_neg _ _ _ hq]
      exact ih

theorem mapGet_overwrite_ne {α : Type} (k k' : String) (v : α) (h : k' ≠ k) :
    ∀ m : List (String × α),
      mapGet (m.map (fun q => if q.1 = k then (k, v) else q)) k' = mapGet m k' := by
  intro m
  induction m with
  | nil => rfl
  | cons q rest ih =>
    by_cases hq : q.1 = k
    · rw [List.map_cons, if_pos hq,
        mapGet_cons_neg ((k, v)) _ k' (fun he => h he.symm),
        mapGet_cons_neg q rest k' (fun he => h (he.symm.trans hq))]
      exact ih
    · by_cases hq' : q.1 = k'
      · rw [List.map_cons, if_neg hq, mapGet_cons_pos _ _ _ hq', mapGet_cons_pos _ _ _ hq']
      · rw [List.map_cons, if_neg hq, mapGet_cons_neg _ _ _ hq', mapGet_cons_neg _ _ _ hq']
        exact ih

theorem mapGet_append_ne {α : Type} (k k' : String) (v : α) (h : k' ≠ k) :
    ∀ m : List (String × α), mapGet (m ++ [(k, v)]) k' = mapGet m k' := by
  intro m
  induction m with
  | nil =>
    rw [List.nil_append, mapGet_cons_neg _ _ _ (fun he => h he.symm)]
  | cons q rest ih =>
    by_cases hq' : q.1 = k'
    · rw [List.cons_append, mapGet_cons_pos _ _ _ hq', mapGet_cons_pos _ _ _ hq']
    · rw [List.cons_append, mapGet_cons_neg _ _ _ hq', mapGet_cons_neg _ _ _ hq']
      exact ih

theorem mapGet_mapSet_ne {α : Type} (m : List (String × α)) (k k' : String) (v : α)
    (h : k' ≠ k) : mapGet (mapSet m k v) k' = mapGet m k' := by
  unfold mapSet
  split
  · exact mapGet_overwrite_ne k k' v h m
  · exact mapGet_append_ne k k' v h m

/-! ### State preservation through one resolution call -/

/-- Shape of one registry entry, without the mutable singleton slot. -/
def rSig (r : Registration) : String × Lifecycle × ClassDef := (r.token, r.lifecycle, r.target)

/-- Shape signature of the registry: everything except the mutable slots. -/
def regSig (st : ContState) : List (String × Lifecycle × ClassDef) := st.regs.map rSig

/-- What a resolution call preserves of the container state: the registry
shape (only singleton slots may change), the session info map, the session
counter, the ambient store, the list of live session keys (only their
caches may change), and monotonicity of the allocation counter. -/
def Preserves (st st' : ContState) : Prop :=
  regSig st' = regSig st ∧
  st'.sessionInfos = st.sessionInfos ∧
  st'.sessionCounter = st.sessionCounter ∧
  st'.store = st.store ∧
  st'.sessions.map Prod.fst = st.sessions.map Prod.fst ∧
  st.nextId ≤ st'.nextId

theorem preserves_refl (st : ContState) : Preserves st st :=
  ⟨rfl, rfl, rfl, rfl, rfl, Nat.le_refl _⟩

theorem preserves_trans {a b c : ContState} (h1 : Preserves a b) (h2 : Preserves b c) :
    Preserves a c :=
  ⟨h2.1.trans h1.1, h2.2.1.trans h1.2.1, h2.2.2.1.trans h1.2.2.1,
   h2.2.2.2.1.trans h1.2.2.2.1, h2.2.2.2.2.1.trans h1.2.2.2.2.1,
   Nat.le_trans h1.2.2.2.2.2 h2.2.2.2.2.2⟩

theorem preserves_setSlot (st : ContState) (tok : String) (v : Nat) :
    Preserves st (setSlot st tok v) := by
  refine ⟨?_, rfl, rfl, rfl, rfl, Nat.le_refl _⟩
  unfold regSig setSlot
  simp only [List.map_map]
  apply List.map_congr_left
  intro r _
  by_cases hr : r.token = tok
  · simp [Function.comp, hr, rSig]
  · simp [Function.comp, hr]

theorem preserves_sessionSet (st : ContState) (sid tok : String) (v : Nat) :
    Preserves st (sessionSet st sid tok v) := by
  refine ⟨rfl, rfl, rfl, rfl, ?_, Nat.le_refl _⟩
  unfold sessionSet
  simp only [List.map_map]
  apply List.map_congr_left
  intro p _
  by_cases hp : p.1 = sid
  · simp [Function.comp, hp]
  · simp [Function.comp, hp]

theorem preserves_alloc (st : ContState) (tok : String) :
    Preserves st { st with nextId := st.nextId + 1, instantiated := st.instantiated ++ [tok] } :=
  ⟨rfl, rfl, rfl, rfl, rfl, Nat.le_succ _⟩

/-! ### Slot lookup through setSlot -/

theorem findReg_cons_pos (r : Registration) (rest : List Registration) (tok : String)
    (h : r.token = tok) :
    (r :: rest).find? (fun x => x.token == tok) = some r :=
  List.find?_cons_of_pos rest (by simp [h])

theorem findReg_cons_neg (r : Registration) (rest : List Registration) (tok : String)
    (h : r.token ≠ tok) :
    (r :: rest).find? (fun x => x.token == tok) = rest.find? (fun x => x.token == tok) :=
  List.find?_cons_of_neg rest (by simp [h])

theorem find?_slot_setSlot_self (tok : String) (v : Nat) :
    ∀ regs : List Registration,
      (regs.find? (fun r => r.token == tok)).isSome →
      ((regs.map (fun r => if r.token = tok then { r with singletonInstance := some v } else r)).find?
          (fun r => r.token == tok)).bind (fun r => r.singletonInstance) = some v := by
  intro regs
  induction regs with
  | nil => intro h; simp at h
  | cons r rest ih =>
    intro h
    by_cases hr : r.token = tok
    · rw [List.map_cons, if_pos hr,
        findReg_cons_pos ({ r with singletonInstance := some v }) _ tok hr]
      rfl
    · rw [List.map_cons, if_neg hr, findReg_cons_neg _ _ _ hr]
      apply ih
      rw [findReg_cons_neg _ _ _ hr] at h
      exact h

theorem find?_slot_setSlot_ne (tok t : String) (v : Nat) (h : t ≠ tok) :
    ∀ regs : List Registration,
      ((regs.map (fun r => if r.token = tok then { r with singletonInstance := some v } else r)).find?
          (fun r => r.token == t)).bind (fun r => r.singletonInstance) =
      (regs.find? (fun r => r.token == t)).bind (fun r => r.singletonInstance) := by
  intro regs
  induction regs with
  | nil => rfl
  | cons r rest ih =>
    by_cases hr : r.token = tok
    · have hrt : r.token ≠ t := fun he => h (he.symm.trans hr)
      rw [List.map_cons, if_pos hr,
        findReg_cons_neg ({ r with singletonInstance := some v }) _ t hrt,
        findReg_cons_neg r rest t hrt]
      exact ih
    · by_cases hrt : r.token = t
      · rw [List.map_cons, if_neg hr, findReg_cons_pos _ _ _ hrt, findReg_cons_pos _ _ _ hrt]
      · rw [List.map_cons, if_neg hr, findReg_cons_neg _ _ _ hrt, findReg_cons_neg _ _ _ hrt]
        exact ih

theorem slotOf_setSlot_self (st : ContState) (tok : String) (v : Nat)
    (h : (findRegistration st tok).isSome) : slotOf (setSlot st tok v) tok = some v := by
  unfold slotOf findRegistration setSlot at *
  exact find?_slot_setSlot_self tok v st.regs h

theorem slotOf_setSlot_ne (st : ContState) (tok t : String) (v : Nat) (h : t ≠ tok) :
    slotOf (setSlot st tok v) t = slotOf st t := by
  unfold slotOf findRegistration setSlot
  exact find?_slot_setSlot_ne tok t v h st.regs

theorem slotOf_sessionSet (st : ContState) (sid tok t : String) (v : Nat) :
    slotOf (sessionSet st sid tok v) t = slotOf st t := rfl

/-- Lookup by token respects the registry shape signature: two registries
with the same signature find entries with the same token, lifecycle and
target (only the slots may differ). -/
theorem find?_respects_regSig (t : String) :
    ∀ l1 l2 : List Registration, l1.map rSig = l2.map rSig →
      Option.map rSig (l1.find? (fun r => r.token == t)) =
      Option.map rSig (l2.find? (fun r => r.token == t)) := by
  intro l1
  induction l1 with
  | nil =>
    intro l2 h
    cases l2 with
    | nil => rfl
    | cons b bs => simp at h
  | cons a as ih =>
    intro l2 h
    cases l2 with
    | nil => simp at h
    | cons b bs =>
      simp only [List.map_cons, List.cons.injEq] at h
      have htok : a.token = b.token := congrArg (fun q => q.1) h.1
      by_cases hat : a.token = t
      · rw [findReg_cons_pos _ _ _ hat, findReg_cons_pos _ _ _ (htok ▸ hat)]
        simpa using h.1
      · rw [findReg_cons_neg _ _ _ hat, findReg_cons_neg _ _ _ (htok ▸ hat)]
        exact ih bs h.2

/-- A key present in a map stays present in any map with the same key list. -/
theorem mapGet_isSome_of_keys_eq {α : Type} (k : String) :
    ∀ l1 l2 : List (String × α), l1.map Prod.fst = l2.map Prod.fst →
      (mapGet l1 k).isSome → (mapGet l2 k).isSome := by
  intro l1
  induction l1 with
  | nil =>
    intro l2 h hs
    simp [mapGet] at hs
  | cons a as ih =>
    intro l2 h hs
    cases l2 with
    | nil => simp at h
    | cons b bs =>
      simp only [List.map_cons, List.cons.injEq] at h
      by_cases ha : a.1 = k
      · rw [mapGet_cons_pos _ _ _ (h.1 ▸ ha)]
        rfl
      · rw [mapGet_cons_neg _ _ _ ha] at hs
        rw [mapGet_cons_neg _ _ _ (h.1 ▸ ha)]
        exact ih bs h.2 hs

/-- One resolution call, whichever function of the mutual group it enters,
preserves the registry shape, the session infos, the counter, the store and
the session key list, and never decreases the allocation counter. -/
theorem presAll : ∀ fuel : Nat,
    (∀ st reg opts path plc st' r,
      resolveRegistration fuel st reg opts path plc = (st', r) → Preserves st st') ∧
    (∀ st reg opts path st' r,
      resolveByLifecycle fuel st reg opts path = (st', r) → Preserves st st') ∧
    (∀ st reg opts path st' r,
      resolveSingleton fuel st reg opts path = (st', r) → Preserves st st') ∧
    (∀ st reg sid opts path st' r,
      resolveScoped fuel st reg sid opts path = (st', r) → Preserves st st') ∧
    (∀ st reg opts path plc st' r,
      instantiate fuel st reg opts path plc = (st', r) → Preserves st st') ∧
    (∀ st deps opts path plc st' r,
      resolveDeps fuel st deps opts path plc = (st', r) → Preserves st st') := by
  intro fuel
  induction fuel with
  | zero =>
    refine ⟨?_, ?_, ?_, ?_, ?_, ?_⟩
    all_goals
      intros
      rename_i heq
      simp only [resolveRegistration, resolveByLifecycle, resolveSingleton, resolveScoped,
        instantiate, resolveDeps] at heq
      cases heq
      exact preserves_refl _
  | succ f ih =>
    obtain ⟨ihReg, ihLc, ihSing, ihScoped, ihInst, ihDeps⟩ := ih
    refine ⟨?_, ?_, ?_, ?_, ?_, ?_⟩
    · intro st reg opts path plc st' r heq
      simp only [resolveRegistration] at heq
      split at heq
      · cases heq; exact preserves_refl _
      · split at heq
        · cases heq; exact preserves_refl _
        · exact ihLc _ _ _ _ _ _ heq
    · intro st reg opts path st' r heq
      simp only [resolveByLifecycle] at heq
      split at heq
      · exact ihSing _ _ _ _ _ _ heq
      · split at heq
        · cases heq; exact preserves_refl _
        · exact ihScoped _ _ _ _ _ _ _ heq
      · exact ihInst _ _ _ _ _ _ _ heq
    · intro st reg opts path st' r heq
      simp only [resolveSingleton] at heq
      split at heq
      · cases heq; exact preserves_refl _
      · split at heq
        case _ st2 v heq2 =>
          cases heq
          exact preserves_trans (ihInst _ _ _ _ _ _ _ heq2) (preserves_setSlot st2 reg.token v)
        case _ st2 e heq2 =>
          cases heq
          exact ihInst _ _ _ _ _ _ _ heq2
    · intro st reg sid opts path st' r heq
      simp only [resolveScoped] at heq
      split at heq
      · cases heq; exact preserves_refl _
      · split at heq
        · cases heq; exact preserves_refl _
        · split at heq
          · cases heq; exact preserves_refl _
          · split at heq
            case _ st2 v heq2 =>
              cases heq
              exact preserves_trans (ihInst _ _ _ _ _ _ _ heq2)
                (preserves_sessionSet st2 sid reg.token v)
            case _ st2 e heq2 =>
              cases heq
              exact ihInst _ _ _ _ _ _ _ heq2
    · intro st reg opts path plc st' r heq
      simp only [instantiate] at heq
      split at heq
      case _ st2 e heq2 =>
        cases heq
        exact ihDeps _ _ _ _ _ _ _ heq2
      case _ st2 vs heq2 =>
        cases heq
        exact preserves_trans (ihDeps _ _ _ _ _ _ _ heq2) (preserves_alloc st2 reg.token)
    · intro st deps opts path plc st' r heq
      match deps with
      | [] =>
        simp only [resolveDeps] at heq
        cases heq
        exact preserves_refl _
      | d :: rest =>
        simp only [resolveDeps] at heq
        split at heq
        · cases heq; exact preserves_refl _
        · split at heq
          case _ st2 e heq2 =>
            cases heq
            exact ihReg _ _ _ _ _ _ _ heq2
          case _ st2 v heq2 =>
            split at heq
            case _ st3 e3 heq3 =>
              cases heq
              exact preserves_trans (ihReg _ _ _ _ _ _ _ heq2) (ihDeps _ _ _ _ _ _ _ heq3)
            case _ st3 vs3 heq3 =>
              cases heq
              exact preserves_trans (ihReg _ _ _ _ _ _ _ heq2) (ihDeps _ _ _ _ _ _ _ heq3)

theorem slotOf_alloc (st : ContState) (tok t : String) :
    slotOf { st with nextId := st.nextId + 1, instantiated := st.instantiated ++ [tok] } t =
      slotOf st t := rfl

/-- Tokens on the current resolution path have their singleton slot
untouched by the remainder of the resolution: the only write to a token's
slot happens in resolveSingleton for that token, which is unreachable while
the token is on the path (the cycle check fires first). -/
theorem slotPresAll : ∀ fuel : Nat,
    (∀ st reg opts path plc st' r t, t ∈ path →
      resolveRegistration fuel st reg opts path plc = (st', r) → slotOf st' t = slotOf st t) ∧
    (∀ st reg opts path st' r t, t ∈ path → t ≠ reg.token →
      resolveByLifecycle fuel st reg opts path = (st', r) → slotOf st' t = slotOf st t) ∧
    (∀ st reg opts path st' r t, t ∈ path → t ≠ reg.token →
      resolveSingleton fuel st reg opts path = (st', r) → slotOf st' t = slotOf st t) ∧
    (∀ st reg sid opts path st' r t, t ∈ path →
      resolveScoped fuel st reg sid opts path = (st', r) → slotOf st' t = slotOf st t) ∧
    (∀ st reg opts path plc st' r t, t ∈ path →
      instantiate fuel st reg opts path plc = (st', r) → slotOf st' t = slotOf st t) ∧
    (∀ st deps opts path plc st' r t, t ∈ path →
      resolveDeps fuel st deps opts path plc = (st', r) → slotOf st' t = slotOf st t) := by
  intro fuel
  induction fuel with
  | zero =>
    refine ⟨?_, ?_, ?_, ?_, ?_, ?_⟩
    all_goals
      intros
      rename_i heq
      simp only [resolveRegistration, resolveByLifecycle, resolveSingleton, resolveScoped,
        instantiate, resolveDeps] at heq
      cases heq
      rfl
  | succ f ih =>
    obtain ⟨ihReg, ihLc, ihSing, ihScoped, ihInst, ihDeps⟩ := ih
    refine ⟨?_, ?_, ?_, ?_, ?_, ?_⟩
    · intro st reg opts path plc st' r t ht heq
      simp only [resolveRegistration] at heq
      split at heq
      · cases heq; rfl
      · split at heq
        · cases heq; rfl
        · rename_i hnotmem _
          exact ihLc _ _ _ _ _ _ _ (List.mem_append_left _ ht)
            (fun he => hnotmem (he ▸ ht)) heq
    · intro st reg opts path st' r t ht hne heq
      simp only [resolveByLifecycle] at heq
      split at heq
      · exact ihSing _ _ _ _ _ _ _ ht hne heq
      · split at heq
        · cases heq; rfl
        · exact ihScoped _ _ _ _ _ _ _ _ ht heq
      · exact ihInst _ _ _ _ _ _ _ _ ht heq
    · intro st reg opts path st' r t ht hne heq
      simp only [resolveSingleton] at heq
      split at heq
      · cases heq; rfl
      · split at heq
        case _ st2 v heq2 =>
          cases heq
          rw [slotOf_setSlot_ne st2 reg.token t v hne]
          exact ihInst _ _ _ _ _ _ _ _ ht heq2
        case _ st2 e heq2 =>
          cases heq
          exact ihInst _ _ _ _ _ _ _ _ ht heq2
    · intro st reg sid opts path st' r t ht heq
      simp only [resolveScoped] at heq
      split at heq
      · cases heq; rfl
      · split at heq
        · cases heq; rfl
        · split at heq
          · cases heq; rfl
          · split at heq
            case _ st2 v heq2 =>
              cases heq
              rw [slotOf_sessionSet st2 sid reg.token t v]
              exact ihInst _ _ _ _ _ _ _ _ ht heq2
            case _ st2 e heq2 =>
              cases heq
              exact ihInst _ _ _ _ _ _ _ _ ht heq2
    · intro st reg opts path plc st' r t ht heq
      simp only [instantiate] at heq
      split at heq
      case _ st2 e heq2 =>
        cases heq
        exact ihDeps _ _ _ _ _ _ _ _ ht heq2
      case _ st2 vs heq2 =>
        cases heq
        rw [slotOf_alloc st2 reg.token t]
        exact ihDeps _ _ _ _ _ _ _ _ ht heq2
    · intro st deps opts path plc st' r t ht heq
      match deps with
      | [] =>
        simp only [resolveDeps] at heq
        cases heq
        rfl
      | d :: rest =>
        simp only [resolveDeps] at heq
        split at heq
        · cases heq; rfl
        · split at heq
          case _ st2 e heq2 =>
            cases heq
            exact ihReg _ _ _ _ _ _ _ _ ht heq2
          case _ st2 v heq2 =>
            split at heq
            case _ st3 e3 heq3 =>
              cases heq
              rw [ihDeps _ _ _ _ _ _ _ _ ht heq3, ihReg _ _ _ _ _ _ _ _ ht heq2]
            case _ st3 vs3 heq3 =>
              cases heq
              rw [ihDeps _ _ _ _ _ _ _ _ ht heq3, ihReg _ _ _ _ _ _ _ _ ht heq2]

/-- Allocation well-formedness: every instance identity stored in a
singleton slot or a session cache was allocated below the counter. -/
def WF (st : ContState) : Prop :=
  (∀ r ∈ st.regs, ∀ v : Nat, r.singletonInstance = some v → v < st.nextId) ∧
  (∀ p ∈ st.sessions, ∀ q ∈ p.2, q.2 < st.nextId)

theorem mem_mapSet {α : Type} {m : List (String × α)} {k : String} {v : α} {q : String × α}
    (h : q ∈ mapSet m k v) : q = (k, v) ∨ q ∈ m := by
  unfold mapSet at h
  split at h
  · rcases List.mem_map.mp h with ⟨q0, hq0, hEq⟩
    by_cases h0 : q0.1 = k
    · rw [if_pos h0] at hEq
      exact Or.inl hEq.symm
    · rw [if_neg h0] at hEq
      exact Or.inr (hEq ▸ hq0)
  · rcases List.mem_append.mp h with h1 | h1
    · exact Or.inr h1
    · exact Or.inl (by simpa using h1)

theorem wf_setSlot {st : ContState} {tok : String} {v : Nat} (h : WF st)
    (hv : v < st.nextId) : WF (setSlot st tok v) := by
  constructor
  · intro r hr w hw
    simp only [setSlot] at hr
    rcases List.mem_map.mp hr with ⟨r0, hr0, hEq⟩
    by_cases h0 : r0.token = tok
    · rw [if_pos h0] at hEq
      rw [← hEq] at hw
      simp only at hw
      cases hw
      exact hv
    · rw [if_neg h0] at hEq
      exact h.1 r0 hr0 w (hEq ▸ hw)
  · intro p hp q hq
    exact h.2 p hp q hq

theorem wf_sessionSet {st : ContState} {sid tok : String} {v : Nat} (h : WF st)
    (hv : v < st.nextId) : WF (sessionSet st sid tok v) := by
  constructor
  · intro r hr w hw
    exact h.1 r hr w hw
  · intro p hp q hq
    simp only [sessionSet] at hp
    rcases List.mem_map.mp hp with ⟨p0, hp0, hEq⟩
    by_cases h0 : p0.1 = sid
    · rw [if_pos h0] at hEq
      rw [← hEq] at hq
      rcases mem_mapSet hq with h1 | h1
      · rw [h1]
        exact hv
      · exact h.2 p0 hp0 q h1
    · rw [if_neg h0] at hEq
      exact h.2 p0 hp0 q (hEq ▸ hq)

theorem wf_alloc {st : ContState} (h : WF st) (tok : String) :
    WF { st with nextId := st.nextId + 1, instantiated := st.instantiated ++ [tok] } := by
  constructor
  · intro r hr w hw
    exact Nat.lt_trans (h.1 r hr w hw) (Nat.lt_succ_self _)
  · intro p hp q hq
    exact Nat.lt_trans (h.2 p hp q hq) (Nat.lt_succ_self _)

theorem findReg_self {st : ContState} {d : String} {reg : Registration}
    (h : findRegistration st d = some reg) : findRegistration st reg.token = some reg := by
  unfold findRegistration at *
  have := List.find?_some h
  have htok : reg.token = d := by simpa using this
  rw [htok]
  exact h

/-- Well-formedness is preserved by resolution, and a successfully
resolved instance identity is below the resulting allocation counter. -/
theorem freshAll : ∀ fuel : Nat,
    (∀ st reg opts path plc st' r, findRegistration st reg.token = some reg → WF st →
      resolveRegistration fuel st reg opts path plc = (st', r) →
      WF st' ∧ ∀ v : Nat, r = .ok v → v < st'.nextId) ∧
    (∀ st reg opts path st' r, findRegistration st reg.token = some reg → WF st →
      resolveByLifecycle fuel st reg opts path = (st', r) →
      WF st' ∧ ∀ v : Nat, r = .ok v → v < st'.nextId) ∧
    (∀ st reg opts path st' r, findRegistration st reg.token = some reg → WF st →
      resolveSingleton fuel st reg opts path = (st', r) →
      WF st' ∧ ∀ v : Nat, r = .ok v → v < st'.nextId) ∧
    (∀ st reg sid opts path st' r, WF st →
      resolveScoped fuel st reg sid opts path = (st', r) →
      WF st' ∧ ∀ v : Nat, r = .ok v → v < st'.nextId) ∧
    (∀ st reg opts path plc st' r, WF st →
      instantiate fuel st reg opts path plc = (st', r) →
      WF st' ∧ ∀ v : Nat, r = .ok v → v < st'.nextId) ∧
    (∀ st deps opts path plc st' r, WF st →
      resolveDeps fuel st deps opts path plc = (st', r) → WF st') := by
  intro fuel
  induction fuel with
  | zero =>
    refine ⟨?_, ?_, ?_, ?_, ?_, ?_⟩
    all_goals
      intros
      rename_i hwf heq
      simp only [resolveRegistration, resolveByLifecycle, resolveSingleton, resolveScoped,
        instantiate, resolveDeps] at heq
      cases heq
      try exact ⟨hwf, by intro v hv; cases hv⟩
    exact hwf
  | succ f ih =>
    obtain ⟨ihReg, ihLc, ihSing, ihScoped, ihInst, ihDeps⟩ := ih
    refine ⟨?_, ?_, ?_, ?_, ?_, ?_⟩
    · intro st reg opts path plc st' r hreg hwf heq
      simp only [resolveRegistration] at heq
      split at heq
      · cases heq; exact ⟨hwf, by intro v hv; cases hv⟩
      · split at heq
        · cases heq; exact ⟨hwf, by intro v hv; cases hv⟩
        · exact ihLc _ _ _ _ _ _ hreg hwf heq
    · intro st reg opts path st' r hreg hwf heq
      simp only [resolveByLifecycle] at heq
      split at heq
      · exact ihSing _ _ _ _ _ _ hreg hwf heq
      · split at heq
        · cases heq; exact ⟨hwf, by intro v hv; cases hv⟩
        · exact ihScoped _ _ _ _ _ _ _ hwf heq
      · exact ihInst _ _ _ _ _ _ _ hwf heq
    · intro st reg opts path st' r hreg hwf heq
      simp only [resolveSingleton] at heq
      split at heq
      case _ v hv =>
        cases heq
        refine ⟨hwf, ?_⟩
        intro w hw
        cases hw
        exact hwf.1 reg (List.mem_of_find?_eq_some hreg) v hv
      · split at heq
        case _ st2 v heq2 =>
          cases heq
          have hi := ihInst _ _ _ _ _ _ _ hwf heq2
          have hvlt : v < st2.nextId := hi.2 v rfl
          refine ⟨wf_setSlot hi.1 hvlt, ?_⟩
          intro w hw
          cases hw
          exact hvlt
        case _ st2 e heq2 =>
          cases heq
          have hi := ihInst _ _ _ _ _ _ _ hwf heq2
          exact ⟨hi.1, by intro v hv; cases hv⟩
    · intro st reg sid opts path st' r hwf heq
      simp only [resolveScoped] at heq
      split at heq
      · cases heq; exact ⟨hwf, by intro v hv; cases hv⟩
      case _ cache hcache =>
        split at heq
        · cases heq; exact ⟨hwf, by intro v hv; cases hv⟩
        · split at heq
          case _ v hv =>
            cases heq
            refine ⟨hwf, ?_⟩
            intro w hw
            cases hw
            unfold mapGet at hcache hv
            rcases Option.map_eq_some'.mp hcache with ⟨pc, hpc, hpc2⟩
            rcases Option.map_eq_some'.mp hv with ⟨qc, hqc, hqc2⟩
            have hmem := List.mem_of_find?_eq_some hpc
            have hmemq := List.mem_of_find?_eq_some hqc
            rw [← hpc2] at hmemq
            have := hwf.2 pc hmem qc hmemq
            rw [hqc2] at this
            exact this
          · split at heq
            case _ st2 v heq2 =>
              cases heq
              have hi := ihInst _ _ _ _ _ _ _ hwf heq2
              have hvlt : v < st2.nextId := hi.2 v rfl
              refine ⟨wf_sessionSet hi.1 hvlt, ?_⟩
              intro w hw
              cases hw
              exact hvlt
            case _ st2 e heq2 =>
              cases heq
              have hi := ihInst _ _ _ _ _ _ _ hwf heq2
              exact ⟨hi.1, by intro v hv; cases hv⟩
    · intro st reg opts path plc st' r hwf heq
      simp only [instantiate] at heq
      split at heq
      case _ st2 e heq2 =>
        cases heq
        exact ⟨ihDeps _ _ _ _ _ _ _ hwf heq2, by intro v hv; cases hv⟩
      case _ st2 vs heq2 =>
        cases heq
        refine ⟨wf_alloc (ihDeps _ _ _ _ _ _ _ hwf heq2) reg.token, ?_⟩
        intro w hw
        cases hw
        exact Nat.lt_succ_self _
    · intro st deps opts path plc st' r hwf heq
      match deps with
      | [] =>
        simp only [resolveDeps] at heq
        cases heq
        exact hwf
      | d :: rest =>
        simp only [resolveDeps] at heq
        split at heq
        · cases heq; exact hwf
        case _ depReg hdep =>
          split at heq
          case _ st2 e heq2 =>
            cases heq
            exact (ihReg _ _ _ _ _ _ _ (findReg_self hdep) hwf heq2).1
          case _ st2 v heq2 =>
            have hwf2 := (ihReg _ _ _ _ _ _ _ (findReg_self hdep) hwf heq2).1
            split at heq
            case _ st3 e3 heq3 =>
              cases heq
              exact ihDeps _ _ _ _ _ _ _ hwf2 heq3
            case _ st3 vs3 heq3 =>
              cases heq
              exact ihDeps _ _ _ _ _ _ _ hwf2 heq3

/-! ### Injectivity of the decimal rendering used by session ids -/

def digitVal (c : Char) : Nat := c.toNat - 48

def parseDec (cs : List Char) : Nat := cs.foldl (fun a c => 10 * a + digitVal c) 0

theorem parseDec_append (cs : List Char) (c : Char) :
    parseDec (cs ++ [c]) = 10 * parseDec cs + digitVal c := by
  unfold parseDec
  rw [List.foldl_append]
  rfl

theorem digitVal_digitChar (d : Nat) (h : d < 10) : digitVal (Nat.digitChar d) = d := by
  interval_cases d <;> rfl

/-- Reference decimal rendering, most significant digit first. -/
def decRep (n : Nat) : List Char :=
  if h : n < 10 then [Nat.digitChar n]
  else decRep (n / 10) ++ [Nat.digitChar (n % 10)]
decreasing_by simp_wf; omega

theorem parseDec_decRep (n : Nat) : parseDec (decRep n) = n := by
  induction n using Nat.strong_induction_on with
  | _ n ih =>
    unfold decRep
    split
    case isTrue h =>
      show parseDec [Nat.digitChar n] = n
      unfold parseDec
      simp [digitVal_digitChar n h]
    case isFalse h =>
      rw [parseDec_append, ih (n / 10) (by omega), digitVal_digitChar (n % 10) (by omega)]
      omega

theorem toDigitsCore_eq_decRep : ∀ fuel n acc, n < fuel →
    Nat.toDigitsCore 10 fuel n acc = decRep n ++ acc := by
  intro fuel
  induction fuel with
  | zero => intro n acc h; exact absurd h (Nat.not_lt_zero n)
  | succ f ihf =>
    intro n acc h
    simp only [Nat.toDigitsCore]
    split
    case isTrue h0 =>
      have hn : n < 10 := by omega
      rw [decRep, dif_pos hn, Nat.mod_eq_of_lt hn]
      rfl
    case isFalse h0 =>
      have hn : ¬ n < 10 := by omega
      have hlt : n / 10 < f := by omega
      rw [ihf (n / 10) (Nat.digitChar (n % 10) :: acc) hlt]
      conv_rhs => rw [decRep, dif_neg hn]
      rw [List.append_assoc]
      rfl

theorem natRepr_inj {m n : Nat} (h : Nat.repr m = Nat.repr n) : m = n := by
  unfold Nat.repr Nat.toDigits at h
  have h2 : Nat.toDigitsCore 10 (m + 1) m [] = Nat.toDigitsCore 10 (n + 1) n [] :=
    congrArg String.data h
  rw [toDigitsCore_eq_decRep (m + 1) m [] (Nat.lt_succ_self m),
    toDigitsCore_eq_decRep (n + 1) n [] (Nat.lt_succ_self n),
    List.append_nil, List.append_nil] at h2
  have h3 := congrArg parseDec h2
  rwa [parseDec_decRep, parseDec_decRep] at h3

theorem mkSessionId_inj {m n : Nat} (h : mkSessionId m = mkSessionId n) : m = n := by
  unfold mkSessionId at h
  have hd : "session-".data ++ (Nat.repr m).data = "session-".data ++ (Nat.repr n).data :=
    congrArg String.data h
  have hdata : (Nat.repr m).data = (Nat.repr n).data := by
    simpa using hd
  exact natRepr_inj (by
    cases hrm : Nat.repr m with
    | mk l1 =>
      cases hrn : Nat.repr n with
      | mk l2 =>
        rw [hrm, hrn] at hdata
        simpa using congrArg String.mk hdata)

/-! ### Small helpers for the claim theorems -/

theorem le_foldr_max : ∀ l : List Nat, ∀ t ∈ l, t ≤ l.foldr max 0 := by
  intro l
  induction l with
  | nil => intro t ht; cases ht
  | cons a rest ih =>
    intro t ht
    rcases List.mem_cons.mp ht with h1 | h1
    · rw [h1]
      exact Nat.le_max_left _ _
    · exact Nat.le_trans (ih t h1) (Nat.le_max_right _ _)

theorem emitGo_invoked (act : Nat → Bus → Bus) :
    ∀ snapshot b, (emitGo act snapshot b).2 = snapshot := by
  intro snapshot
  induction snapshot with
  | nil => intro b; rfl
  | cons l rest ih =>
    intro b
    simp only [emitGo]
    cases hout : emitGo act rest (act l b) with
    | mk b2 inv =>
      have hr := ih (act l b)
      rw [hout] at hr
      simp only at hr
      simp [hr]

/-! ### Claim theorems -/

/-- C5: registering a token already bound to a different target throws
DuplicateRegistration and leaves the registry unchanged; re-registering the
identical (token, target) pair is a no-op returning the existing
Registration (token taken from the explicit name option or defaulted from
the target's intrinsic name). -/
theorem c5_register_duplicate_rule (st : ContState) (target : ClassDef)
    (opts : InjectableOptions) :
    (∀ existing, findRegistration st (generateToken target opts) = some existing →
      existing.target.cid ≠ target.cid →
      register st target opts =
        (st, .error (.duplicateRegistration (generateToken target opts)))) ∧
    (∀ existing, findRegistration st (generateToken target opts) = some existing →
      existing.target.cid = target.cid →
      register st target opts = (st, .ok existing)) := by
  constructor
  · intro existing hfind hne
    simp only [register, hfind]
    rw [if_pos hne]
  · intro existing hfind heqc
    simp only [register, hfind]
    rw [if_neg (by simpa using heqc)]

/-- Fixture for the C5 witness: token X bound to class identity 1. -/
def c5Reg : Registration :=
  { token := "X", type := ServiceType.service, lifecycle := Lifecycle.singleton,
    target := { cid := 1, cname := some "X", deps := [] } }

/-- Fixture for the C5 witness: a registry holding only c5Reg. -/
def c5St : ContState := { emptyState with regs := [c5Reg] }

/-- C5 witness: a registry holding token X for class identity 1 rejects a
different class under the same token and returns the existing Registration
for the identical pair. -/
theorem c5_register_duplicate_rule_witness :
    register c5St { cid := 2, cname := some "X", deps := [] } {} =
      (c5St, .error (.duplicateRegistration "X")) ∧
    register c5St { cid := 1, cname := some "X", deps := [] } {} = (c5St, .ok c5Reg) := by
  constructor
  · exact (c5_register_duplicate_rule c5St _ _).1 c5Reg (by decide) (by decide)
  · exact (c5_register_duplicate_rule c5St _ _).2 c5Reg (by decide) (by decide)

/-- C9: emission iterates a stable snapshot — whatever the invoked
listeners do to the listener sets (unsubscribing themselves, others, or
subscribing new ones), the listeners invoked by an emission are exactly
those subscribed to the event when the emission started. -/
theorem c9_emit_snapshot (act : Nat → Bus → Bus) (b : Bus) (event : String)
    (snapshot : List Nat) (h : mapGet b.listeners event = some snapshot) :
    (emit act b event).2 = snapshot := by
  unfold emit
  rw [h]
  exact emitGo_invoked act snapshot b

/-- C9 witness: three listeners on one event, each unsubscribing itself
when invoked; all three are still invoked. -/
theorem c9_emit_snapshot_witness :
    (emit (fun l bb => busOff bb "resolve:start" l)
      { listeners := [("resolve:start", [1, 2, 3])] } "resolve:start").2 = [1, 2, 3] :=
  c9_emit_snapshot (fun l bb => busOff bb "resolve:start" l)
    { listeners := [("resolve:start", [1, 2, 3])] } "resolve:start" [1, 2, 3] rfl

/-- C7: destroying a session invokes the dispose hook of every cached
instance that has one (regardless of sync throws or async rejections,
which are swallowed), unconditionally removes the session and its info,
and returns a pending batch that settles only when every pending disposal
has settled (the settle time of each pending disposal bounds the batch
settle time returned by Promise.all). -/
theorem c7_destroySession (env : DisposeEnv) (st : ContState) (sid : String)
    (entries : List (String × Nat)) (h : mapGet st.sessions sid = some entries) :
    (∀ q ∈ entries, hasDisposeHook env q.2 → q.2 ∈ (destroySession env st sid).2.1) ∧
    mapGet (destroySession env st sid).1.sessions sid = none ∧
    mapGet (destroySession env st sid).1.sessionInfos sid = none ∧
    (∀ q ∈ entries, ∀ t, disposeAsyncIfPossible env q.2 = some t →
      t ∈ (destroySession env st sid).2.2) ∧
    (∀ t ∈ (destroySession env st sid).2.2,
      t ≤ promiseAllSettle (destroySession env st sid).2.2) := by
  refine ⟨?_, ?_, ?_, ?_, ?_⟩
  · intro q hq hhook
    simp only [destroySession, h, Option.getD_some]
    exact List.mem_map.mpr ⟨q, List.mem_filter.mpr ⟨hq, hhook⟩, rfl⟩
  · simp only [destroySession]
    exact mapGet_mapDelete_self _ sid
  · simp only [destroySession]
    exact mapGet_mapDelete_self _ sid
  · intro q hq t ht
    simp only [destroySession, h, Option.getD_some]
    exact List.mem_filterMap.mpr ⟨q, hq, ht⟩
  · intro t ht
    exact le_foldr_max _ t ht

/-- Fixture for the C7 witness: dispose behaviours of the three cached
instances (synchronous, throwing, pending until time 7). -/
def c7Env : DisposeEnv := fun i =>
  if i = 1 then DisposeKind.syncOk
  else if i = 2 then DisposeKind.syncThrow
  else DisposeKind.asyncOk 7

/-- Fixture for the C7 witness: one session caching three instances. -/
def c7St : ContState := { emptyState with sessions := [("s", [("a", 1), ("b", 2), ("c", 3)])] }

/-- C7 witness: the session above has all three hooks invoked, is removed,
and its one pending disposal bounds the settle time of the returned batch. -/
theorem c7_destroySession_witness :
    (∀ q ∈ [("a", 1), ("b", 2), ("c", 3)], hasDisposeHook c7Env q.2 →
      q.2 ∈ (destroySession c7Env c7St "s").2.1) ∧
    mapGet (destroySession c7Env c7St "s").1.sessions "s" = none ∧
    mapGet (destroySession c7Env c7St "s").1.sessionInfos "s" = none ∧
    (∀ q ∈ [("a", 1), ("b", 2), ("c", 3)], ∀ t, disposeAsyncIfPossible c7Env q.2 = some t →
      t ∈ (destroySession c7Env c7St "s").2.2) ∧
    (∀ t ∈ (destroySession c7Env c7St "s").2.2,
      t ≤ promiseAllSettle (destroySession c7Env c7St "s").2.2) :=
  c7_destroySession c7Env c7St "s" [("a", 1), ("b", 2), ("c", 3)] rfl

/-- C8 counterexample: session ids are NOT unique across the container's
whole lifetime when a clear() intervenes — clear() resets the session
counter, so the first session created before the clear and the first
session created after it carry the identical id "session-1". -/
theorem c8_counterexample :
    (createSession emptyState none).1.id = "session-1" ∧
    (createSession (clear (fun _ => DisposeKind.noHook)
        (createSession emptyState none).2).1 none).1.id = "session-1" := by
  constructor <;> rfl

/-- C8 amended: createSession allocates the id from the pre-incremented
per-container counter and registers the session in the live-session maps;
the id is distinct from every id created since the most recent clear()
(those ids all embed counter values at most the current counter, and the
decimal rendering is injective).  clear() resets the counter to 0, so ids
repeat across clear boundaries. -/
theorem c8_amended (st : ContState) (scope : Option String) (created : List String)
    (hcreated : ∀ id ∈ created, ∃ k, k ≤ st.sessionCounter ∧ id = mkSessionId k) :
    (createSession st scope).1.id = mkSessionId (st.sessionCounter + 1) ∧
    (createSession st scope).1.id ∉ created ∧
    (createSession st scope).2.sessionCounter = st.sessionCounter + 1 ∧
    mapGet (createSession st scope).2.sessions (createSession st scope).1.id = some [] ∧
    mapGet (createSession st scope).2.sessionInfos (createSession st scope).1.id =
      some (createSession st scope).1 := by
  refine ⟨rfl, ?_, rfl, ?_, ?_⟩
  · intro hmem
    rcases hcreated _ hmem with ⟨k, hk, hid⟩
    have : st.sessionCounter + 1 = k :=
      mkSessionId_inj (show mkSessionId (st.sessionCounter + 1) = mkSessionId k from hid)
    omega
  · exact mapGet_mapSet_self _ _ _
  · exact mapGet_mapSet_self _ _ _

/-- C8 witness: starting from a container that has created one session
("session-1", counter 1), the next session is "session-2", which is new. -/
theorem c8_amended_witness :
    (createSession (createSession emptyState none).2 none).1.id = mkSessionId 2 ∧
    (createSession (createSession emptyState none).2 none).1.id ∉ ["session-1"] ∧
    (createSession (createSession emptyState none).2 none).2.sessionCounter = 2 ∧
    mapGet (createSession (createSession emptyState none).2 none).2.sessions
      (createSession (createSession emptyState none).2 none).1.id = some [] ∧
    mapGet (createSession (createSession emptyState none).2 none).2.sessionInfos
      (createSession (createSession emptyState none).2 none).1.id =
      some (createSession (createSession emptyState none).2 none).1 :=
  c8_amended (createSession emptyState none).2 none ["session-1"]
    (by
      intro id hid
      refine ⟨1, by decide, ?_⟩
      rcases List.mem_singleton.mp hid with h
      rw [h]
      rfl)

/-- C1 amended: the lifetime-capture guard fires on the edge from the
immediate consumer to the dependency — whenever a Singleton-lifecycle
consumer's constructor dependency list starts with a Scoped-lifecycle
registration, resolve of the consumer fails with LifecycleViolation naming
consumer and dependency, regardless of options, ambient session or live
sessions (all arbitrary here).  The guard compares only the immediate
parent lifecycle, so it does not fire across a Transient intermediate (see
the counterexample). -/
theorem c1_amended (f : Nat) (st : ContState) (inh : Option InheritanceRules)
    (sTok cTok : String) (opts : ResolveOptions) (regS regC : Registration)
    (rest : List String)
    (hfindS : findRegistration st sTok = some regS)
    (hlcS : regS.lifecycle = Lifecycle.singleton)
    (hslot : regS.singletonInstance = none)
    (hdeps : regS.target.deps = cTok :: rest)
    (hfindC : findRegistration st cTok = some regC)
    (hlcC : regC.lifecycle = Lifecycle.scoped)
    (hne : sTok ≠ cTok) :
    resolveChain (f + 6) [{ state := st, inh := inh }] sTok opts =
      ([{ state := st, inh := inh }], .error (.lifecycleViolation sTok cTok)) := by
  have htokC : regC.token = cTok := by
    have h' := hfindC
    unfold findRegistration at h'
    simpa using List.find?_some h'
  have htokS : regS.token = sTok := by
    have h' := hfindS
    unfold findRegistration at h'
    simpa using List.find?_some h'
  have h1 : resolveRegistration (f + 1) st regC (normalizeResolveOptions st opts) [sTok]
      (some Lifecycle.singleton) = (st, .error (.lifecycleViolation sTok cTok)) := by
    simp only [resolveRegistration, htokC, List.mem_singleton]
    rw [if_neg (fun he => hne he.symm), if_pos (by simp [hlcC])]
    simp [List.getLastD]
  have h2 : resolveDeps (f + 2) st (cTok :: rest) (normalizeResolveOptions st opts) [sTok]
      Lifecycle.singleton = (st, .error (.lifecycleViolation sTok cTok)) := by
    rw [show f + 2 = (f + 1) + 1 from rfl]
    simp only [resolveDeps, hfindC, h1]
  have h3 : instantiate (f + 3) st regS (normalizeResolveOptions st opts) [sTok]
      Lifecycle.singleton = (st, .error (.lifecycleViolation sTok cTok)) := by
    rw [show f + 3 = (f + 2) + 1 from rfl]
    simp only [instantiate, hdeps, h2]
  have h4 : resolveSingleton (f + 4) st regS (normalizeResolveOptions st opts) [sTok] =
      (st, .error (.lifecycleViolation sTok cTok)) := by
    rw [show f + 4 = (f + 3) + 1 from rfl]
    simp only [resolveSingleton, hslot, hlcS, h3]
  have h5 : resolveByLifecycle (f + 5) st regS (normalizeResolveOptions st opts) [sTok] =
      (st, .error (.lifecycleViolation sTok cTok)) := by
    rw [show f + 5 = (f + 4) + 1 from rfl]
    simp only [resolveByLifecycle, hlcS, h4]
  have h6 : resolveRegistration (f + 6) st regS (normalizeResolveOptions st opts) [] none =
      (st, .error (.lifecycleViolation sTok cTok)) := by
    rw [show f + 6 = (f + 5) + 1 from rfl]
    simp only [resolveRegistration, List.not_mem_nil, if_false, List.nil_append, htokS]
    rw [if_neg (by simp)]
    exact h5
  simp only [resolveChain, hfindS, h6]

/-- Fixtures for C1: S (Singleton) depends on T (Transient) depends on C
(Scoped); one live session "session-1" with an empty cache. -/
def c1RegS : Registration :=
  { token := "S", type := ServiceType.service, lifecycle := Lifecycle.singleton,
    target := { cid := 1, cname := some "S", deps := ["T"] } }

def c1RegT : Registration :=
  { token := "T", type := ServiceType.service, lifecycle := Lifecycle.transient,
    target := { cid := 2, cname := some "T", deps := ["C"] } }

def c1RegC : Registration :=
  { token := "C", type := ServiceType.service, lifecycle := Lifecycle.scoped,
    target := { cid := 3, cname := some "C", deps := [] } }

def c1St : ContState :=
  { emptyState with
      regs := [c1RegS, c1RegT, c1RegC],
      sessions := [("session-1", [])],
      sessionInfos := [("session-1", { id := "session-1", createdAt := 0, scope := none })] }

/-- C1 counterexample: a Singleton whose dependency graph reaches a Scoped
registration only through a Transient intermediate resolves successfully
(no LifecycleViolation is raised), because the guard checks only the
immediate parent's lifecycle — refuting the claim that every transitive
Singleton-to-Scoped chain fails. -/
theorem c1_counterexample :
    (resolveChain 20 [{ state := c1St }] "S" { sessionId := some "session-1" }).2 =
      .ok 2 := by
  rfl

/-- Fixtures for the C1 witness: a Singleton S2 directly depending on the
Scoped C. -/
def c1RegS2 : Registration :=
  { token := "S2", type := ServiceType.service, lifecycle := Lifecycle.singleton,
    target := { cid := 4, cname := some "S2", deps := ["C"] } }

def c1StW : ContState := { c1St with regs := [c1RegS2, c1RegC] }

/-- C1 witness: the direct case — a Singleton whose first constructor
dependency is the Scoped C — fails with LifecycleViolation naming consumer
and dependency, both with and without a session. -/
theorem c1_amended_witness :
    resolveChain 6 [{ state := c1StW }] "S2" { sessionId := some "session-1" } =
      ([{ state := c1StW }], .error (.lifecycleViolation "S2" "C")) ∧
    resolveChain 6 [{ state := c1StW }] "S2" {} =
      ([{ state := c1StW }], .error (.lifecycleViolation "S2" "C")) := by
  constructor
  · exact c1_amended 0 c1StW none "S2" "C" { sessionId := some "session-1" }
      c1RegS2 c1RegC [] rfl rfl rfl rfl rfl rfl (by decide)
  · exact c1_amended 0 c1StW none "S2" "C" {} c1RegS2 c1RegC [] rfl rfl rfl rfl rfl rfl
      (by decide)

/-- Unfolding helper: resolving a singleton-lifecycle token on one
container with a filled slot returns the cached instance and leaves the
state untouched. -/
theorem resolveChain_singleton_cached (f : Nat) (st : ContState)
    (inh : Option InheritanceRules) (tok : String) (opts : ResolveOptions)
    (reg : Registration) (v : Nat)
    (hfind : findRegistration st tok = some reg)
    (hlc : reg.lifecycle = Lifecycle.singleton)
    (hslot : reg.singletonInstance = some v) :
    resolveChain (f + 3) [{ state := st, inh := inh }] tok opts =
      ([{ state := st, inh := inh }], .ok v) := by
  have h1 : resolveSingleton (f + 1) st reg (normalizeResolveOptions st opts) [reg.token] =
      (st, .ok v) := by
    simp only [resolveSingleton, hslot]
  have h2 : resolveByLifecycle (f + 2) st reg (normalizeResolveOptions st opts) [reg.token] =
      (st, .ok v) := by
    rw [show f + 2 = (f + 1) + 1 from rfl]
    simp only [resolveByLifecycle, hlc, h1]
  have h3 : resolveRegistration (f + 3) st reg (normalizeResolveOptions st opts) [] none =
      (st, .ok v) := by
    rw [show f + 3 = (f + 2) + 1 from rfl]
    simp only [resolveRegistration, List.not_mem_nil, if_false, List.nil_append]
    rw [if_neg (by simp)]
    exact h2
  simp only [resolveChain, hfind, h3]

/-- Unfolding helper: resolving a singleton-lifecycle token on one
container with an empty slot runs instantiate; on success the slot is
filled with the fresh instance, on failure the state is whatever
instantiate left behind and the slot is untouched. -/
theorem resolveChain_singleton_uncached (f : Nat) (st : ContState)
    (inh : Option InheritanceRules) (tok : String) (opts : ResolveOptions)
    (reg : Registration)
    (hfind : findRegistration st tok = some reg)
    (hlc : reg.lifecycle = Lifecycle.singleton)
    (hslot : reg.singletonInstance = none) :
    resolveChain (f + 3) [{ state := st, inh := inh }] tok opts =
      (match instantiate f st reg (normalizeResolveOptions st opts) [reg.token]
          Lifecycle.singleton with
       | (st2, .ok v) => ([{ state := setSlot st2 reg.token v, inh := inh }], .ok v)
       | (st2, .error e) => ([{ state := st2, inh := inh }], .error e)) := by
  have h1 : resolveSingleton (f + 1) st reg (normalizeResolveOptions st opts) [reg.token] =
      (match instantiate f st reg (normalizeResolveOptions st opts) [reg.token]
          Lifecycle.singleton with
       | (st2, .ok v) => (setSlot st2 reg.token v, .ok v)
       | (st2, .error e) => (st2, .error e)) := by
    simp only [resolveSingleton, hslot, hlc]
  have h2 : resolveByLifecycle (f + 2) st reg (normalizeResolveOptions st opts) [reg.token] =
      (match instantiate f st reg (normalizeResolveOptions st opts) [reg.token]
          Lifecycle.singleton with
       | (st2, .ok v) => (setSlot st2 reg.token v, .ok v)
       | (st2, .error e) => (st2, .error e)) := by
    rw [show f + 2 = (f + 1) + 1 from rfl]
    simp only [resolveByLifecycle, hlc, h1]
  have h3 : resolveRegistration (f + 3) st reg (normalizeResolveOptions st opts) [] none =
      (match instantiate f st reg (normalizeResolveOptions st opts) [reg.token]
          Lifecycle.singleton with
       | (st2, .ok v) => (setSlot st2 reg.token v, .ok v)
       | (st2, .error e) => (st2, .error e)) := by
    rw [show f + 3 = (f + 2) + 1 from rfl]
    simp only [resolveRegistration, List.not_mem_nil, if_false, List.nil_append]
    rw [if_neg (by simp)]
    exact h2
  simp only [resolveChain, hfind, h3]
  cases hout : instantiate f st reg (normalizeResolveOptions st opts) [reg.token]
      Lifecycle.singleton with
  | mk st2 r =>
    cases r with
    | ok v => simp
    | error e => simp

/-- Unfolding helper: a head container with no local registration and no
inheritance filters hands resolve to the rest of the chain with the same
options. -/
theorem resolveChain_delegate (g : Nat) (stC : ContState) (rest : List Frame)
    (tok : String) (opts : ResolveOptions)
    (hC : findRegistration stC tok = none) (hrest : rest ≠ []) :
    resolveChain g ({ state := stC, inh := none } :: rest) tok opts =
      ({ state := stC, inh := none } :: (resolveChain g rest tok opts).1,
       (resolveChain g rest tok opts).2) := by
  cases rest with
  | nil => exact absurd rfl hrest
  | cons fr2 rest2 =>
    simp only [resolveChain, hC]
    rw [if_pos ⟨by simp, rfl⟩]

/-- C6: a child container with no local registration and no inheritance
filters delegates resolve to the parent chain with the same options (in
particular, a parent-cached singleton instance is returned as-is); with an
exclude filter naming the token, resolution instead fails with
NotAvailableInContainer, an error distinct from the NotFound produced when
no container in the chain has the token. -/
theorem c6_hierarchy_fallback (f : Nat) (stC stP : ContState)
    (inhP : Option InheritanceRules) (tok : String) (opts : ResolveOptions) :
    (∀ rest, findRegistration stC tok = none → rest ≠ [] →
      resolveChain f ({ state := stC, inh := none } :: rest) tok opts =
        ({ state := stC, inh := none } :: (resolveChain f rest tok opts).1,
         (resolveChain f rest tok opts).2)) ∧
    (∀ regP v, findRegistration stC tok = none → findRegistration stP tok = some regP →
      regP.lifecycle = Lifecycle.singleton → regP.singletonInstance = some v →
      resolveChain (f + 3)
          [{ state := stC, inh := none }, { state := stP, inh := inhP }] tok opts =
        ([{ state := stC, inh := none }, { state := stP, inh := inhP }], .ok v)) ∧
    (∀ rest incl excl, findRegistration stC tok = none → rest ≠ [] → tok ∈ excl →
      resolveChain f
          ({ state := stC, inh := some { includeStrings := incl, excludeStrings := excl } } ::
            rest) tok opts =
        ({ state := stC, inh := some { includeStrings := incl, excludeStrings := excl } } ::
            rest, .error (.notAvailableInContainer tok))) ∧
    (findRegistration stC tok = none →
      resolveChain f [{ state := stC, inh := none }] tok opts =
        ([{ state := stC, inh := none }], .error (.notFound tok))) := by
  refine ⟨fun rest hC hrest => resolveChain_delegate f stC rest tok opts hC hrest, ?_, ?_, ?_⟩
  · intro regP v hC hP hlc hslot
    rw [resolveChain_delegate (f + 3) stC [{ state := stP, inh := inhP }] tok opts hC (by simp),
      resolveChain_singleton_cached f stP inhP tok opts regP v hP hlc hslot]
  · intro rest incl excl hC hrest hexcl
    simp only [resolveChain, hC]
    rw [if_neg (fun hand => by
      have hcan := hand.2
      simp only [canInheritToken] at hcan
      rw [if_pos hexcl] at hcan
      cases hcan)]
    rw [if_pos hrest]
  · intro hC
    simp only [resolveChain, hC]
    rw [if_neg (fun hand => hand.1 rfl)]
    rw [if_neg (fun hne => hne rfl)]

/-- Fixtures for the C6 witness: a parent with a cached singleton X. -/
def c6StP : ContState :=
  { emptyState with
      regs := [{ token := "X", type := ServiceType.service,
                 lifecycle := Lifecycle.singleton,
                 target := { cid := 5, cname := some "X", deps := [] },
                 singletonInstance := some 41 }] }

/-- C6 witness: an unfiltered child resolves X to the parent's cached
instance; a child excluding X fails with NotAvailableInContainer; a
root container without X fails with NotFound. -/
theorem c6_hierarchy_fallback_witness :
    resolveChain 3 [{ state := emptyState, inh := none }, { state := c6StP, inh := none }]
        "X" {} =
      ([{ state := emptyState, inh := none }, { state := c6StP, inh := none }], .ok 41) ∧
    resolveChain 3
        ({ state := emptyState,
           inh := some { includeStrings := [], excludeStrings := ["X"] } } ::
          [{ state := c6StP, inh := none }]) "X" {} =
      ({ state := emptyState,
         inh := some { includeStrings := [], excludeStrings := ["X"] } } ::
          [{ state := c6StP, inh := none }], .error (.notAvailableInContainer "X")) ∧
    resolveChain 3 [{ state := emptyState, inh := none }] "X" {} =
      ([{ state := emptyState, inh := none }], .error (.notFound "X")) := by
  refine ⟨?_, ?_, ?_⟩
  · exact (c6_hierarchy_fallback 0 emptyState c6StP none "X" {}).2.1 _ 41 rfl rfl rfl rfl
  · exact (c6_hierarchy_fallback 3 emptyState c6StP none "X" {}).2.2.1
      [{ state := c6StP, inh := none }] [] ["X"] rfl (by simp) (by simp)
  · exact (c6_hierarchy_fallback 3 emptyState c6StP none "X" {}).2.2.2 rfl

/-- C3: singleton lifecycle — a filled slot is returned identically with no
re-creation and no state change, whatever the options or session; a first
successful resolve stores the created instance permanently in the slot; and
a failed first attempt leaves the slot empty (so a later resolve retries
instantiation). -/
theorem c3_singleton_permanence (f : Nat) (st : ContState) (inh : Option InheritanceRules)
    (tok : String) (opts : ResolveOptions) (reg : Registration)
    (hfind : findRegistration st tok = some reg)
    (hlc : reg.lifecycle = Lifecycle.singleton) :
    (∀ v, reg.singletonInstance = some v →
      resolveChain (f + 3) [{ state := st, inh := inh }] tok opts =
        ([{ state := st, inh := inh }], .ok v)) ∧
    (∀ v, reg.singletonInstance = none →
      (resolveChain (f + 3) [{ state := st, inh := inh }] tok opts).2 = .ok v →
      slotOf (headState (resolveChain (f + 3) [{ state := st, inh := inh }] tok opts).1) tok =
        some v) ∧
    (∀ e, reg.singletonInstance = none →
      (resolveChain (f + 3) [{ state := st, inh := inh }] tok opts).2 = .error e →
      slotOf (headState (resolveChain (f + 3) [{ state := st, inh := inh }] tok opts).1) tok =
        none) := by
  have htok : reg.token = tok := by
    have h' := hfind
    unfold findRegistration at h'
    simpa using List.find?_some h'
  refine ⟨?_, ?_, ?_⟩
  · intro v hslot
    exact resolveChain_singleton_cached f st inh tok opts reg v hfind hlc hslot
  · intro v hslot hok
    rw [resolveChain_singleton_uncached f st inh tok opts reg hfind hlc hslot] at hok ⊢
    cases hout : instantiate f st reg (normalizeResolveOptions st opts) [reg.token]
        Lifecycle.singleton with
    | mk st2 r =>
      rw [hout] at hok
      cases r with
      | error e => simp at hok
      | ok w =>
        have hwv : w = v := by simpa using hok
        subst hwv
        show slotOf (setSlot st2 reg.token w) tok = some w
        rw [htok]
        apply slotOf_setSlot_self
        have hpres := (presAll f).2.2.2.2.1 st reg (normalizeResolveOptions st opts)
          [reg.token] Lifecycle.singleton st2 (.ok w) hout
        have h1 := find?_respects_regSig tok st2.regs st.regs hpres.1
        have hfind' : st.regs.find? (fun r => r.token == tok) = some reg := hfind
        rw [hfind'] at h1
        unfold findRegistration
        cases hf2 : st2.regs.find? (fun r => r.token == tok) with
        | none => rw [hf2] at h1; cases h1
        | some r2 => rfl
  · intro e hslot herr
    rw [resolveChain_singleton_uncached f st inh tok opts reg hfind hlc hslot] at herr ⊢
    cases hout : instantiate f st reg (normalizeResolveOptions st opts) [reg.token]
        Lifecycle.singleton with
    | mk st2 r =>
      rw [hout] at herr
      cases r with
      | ok w => simp at herr
      | error e2 =>
        show slotOf st2 tok = none
        have hsp := (slotPresAll f).2.2.2.2.1 st reg (normalizeResolveOptions st opts)
          [reg.token] Lifecycle.singleton st2 (.error e2) tok
          (by rw [htok]; exact List.mem_singleton.mpr rfl) hout
        rw [hsp]
        unfold slotOf
        rw [hfind]
        simp [hslot]

/-- Fixtures for the C3 witness: a singleton A with no dependencies, a
singleton B whose dependency is unregistered (so instantiation throws). -/
def c3RegA : Registration :=
  { token := "A", type := ServiceType.service, lifecycle := Lifecycle.singleton,
    target := { cid := 1, cname := some "A", deps := [] } }

def c3RegB : Registration :=
  { token := "B", type := ServiceType.service, lifecycle := Lifecycle.singleton,
    target := { cid := 2, cname := some "B", deps := ["missing"] } }

def c3St : ContState := { emptyState with regs := [c3RegA, c3RegB] }

/-- C3 witness: resolving A once stores instance 0 in the slot; from the
updated state a second resolve returns the identical instance 0 without
state change; resolving B (whose instantiation fails with NotFound on its
dependency) leaves B's slot empty. -/
theorem c3_singleton_permanence_witness :
    slotOf (headState (resolveChain 5 [{ state := c3St, inh := none }] "A" {}).1) "A" =
      some 0 ∧
    resolveChain 3 [{ state := setSlot c3St "A" 0, inh := none }] "A" {} =
      ([{ state := setSlot c3St "A" 0, inh := none }], .ok 0) ∧
    slotOf (headState (resolveChain 5 [{ state := c3St, inh := none }] "B" {}).1) "B" =
      none := by
  refine ⟨?_, ?_, ?_⟩
  · exact (c3_singleton_permanence 2 c3St none "A" {} c3RegA rfl rfl).2.1 0 rfl rfl
  · exact (c3_singleton_permanence 0 (setSlot c3St "A" 0) none "A" {}
      { c3RegA with singletonInstance := some 0 } (by decide) rfl).1 0 rfl
  · exact (c3_singleton_permanence 2 c3St none "B" {} c3RegB (by decide) rfl).2.2
      (.notFound "missing") rfl rfl

/-- C10 amended: sessions are private to the container that created them —
when a child delegates resolve of a Scoped token registered only in the
parent, the parent consults only its own ambient storage and live-session
map, so an explicit session id the parent does not know fails with
SessionNotFound, and a session ambient only in the child (the child's
AsyncLocalStorage, never the parent's) fails with NoActiveSession.  The
caveat the counterexample forces: session ids are per-container counters,
so a parent session with the same id string would be used instead (the
child's session still never crosses the hierarchy). -/
theorem c10_amended (f : Nat) (stC stP : ContState) (inhP : Option InheritanceRules)
    (tok sid : String) (regP : Registration)
    (hC : findRegistration stC tok = none)
    (hP : findRegistration stP tok = some regP)
    (hlc : regP.lifecycle = Lifecycle.scoped)
    (hPstore : stP.store = none) :
    (mapGet stP.sessions sid = none →
      resolveChain (f + 3) [{ state := stC, inh := none }, { state := stP, inh := inhP }]
          tok { sessionId := some sid } =
        ([{ state := stC, inh := none }, { state := stP, inh := inhP }],
         .error (.sessionNotFound sid))) ∧
    (∀ ctx : ScopeContext,
      findRegistration { stC with store := some ctx } tok = none →
      resolveChain (f + 2)
          [{ state := { stC with store := some ctx }, inh := none },
           { state := stP, inh := inhP }] tok {} =
        ([{ state := { stC with store := some ctx }, inh := none },
          { state := stP, inh := inhP }], .error (.noActiveSession tok))) := by
  constructor
  · intro hsess
    have hn : (normalizeResolveOptions stP { sessionId := some sid }).sessionId = some sid := by
      unfold normalizeResolveOptions
      rw [hPstore]
      dsimp only
      cases hinfo : mapGet stP.sessionInfos sid with
      | none => rfl
      | some info =>
        dsimp only
        cases hsc : info.scope with
        | none => rfl
        | some sc => rfl
    have h1 : resolveScoped (f + 1) stP regP sid
        (normalizeResolveOptions stP { sessionId := some sid }) [regP.token] =
        (stP, .error (.sessionNotFound sid)) := by
      simp only [resolveScoped, hsess]
    have h2 : resolveByLifecycle (f + 2) stP regP
        (normalizeResolveOptions stP { sessionId := some sid }) [regP.token] =
        (stP, .error (.sessionNotFound sid)) := by
      rw [show f + 2 = (f + 1) + 1 from rfl]
      simp only [resolveByLifecycle, hlc, hn, h1]
    have h3 : resolveRegistration (f + 3) stP regP
        (normalizeResolveOptions stP { sessionId := some sid }) [] none =
        (stP, .error (.sessionNotFound sid)) := by
      rw [show f + 3 = (f + 2) + 1 from rfl]
      simp only [resolveRegistration, List.not_mem_nil, if_false, List.nil_append]
      rw [if_neg (by simp)]
      exact h2
    rw [resolveChain_delegate (f + 3) stC [{ state := stP, inh := inhP }] tok
      { sessionId := some sid } hC (by simp)]
    simp only [resolveChain, hP, h3]
  · intro ctx hC2
    have hn : normalizeResolveOptions stP {} = ({} : ResolveOptions) := by
      unfold normalizeResolveOptions
      rw [hPstore]
    have h2 : resolveByLifecycle (f + 1) stP regP (normalizeResolveOptions stP {})
        [regP.token] = (stP, .error (.noActiveSession regP.token)) := by
      simp only [resolveByLifecycle, hlc, hn, hPstore]
      rfl
    have htokP : regP.token = tok := by
      have h' := hP
      unfold findRegistration at h'
      simpa using List.find?_some h'
    have h3 : resolveRegistration (f + 2) stP regP (normalizeResolveOptions stP {}) [] none =
        (stP, .error (.noActiveSession tok)) := by
      rw [show f + 2 = (f + 1) + 1 from rfl]
      simp only [resolveRegistration, List.not_mem_nil, if_false, List.nil_append]
      rw [if_neg (by simp)]
      rw [h2, htokP]
    rw [resolveChain_delegate (f + 2) { stC with store := some ctx }
      [{ state := stP, inh := inhP }] tok {} hC2 (by simp)]
    simp only [resolveChain, hP, h3]

/-- Fixtures for C10: the parent owns the Scoped registration T and (for
the counterexample) its own session also named "session-1"; the child owns
a like-named session of its own. -/
def c10RegT : Registration :=
  { token := "T", type := ServiceType.service, lifecycle := Lifecycle.scoped,
    target := { cid := 1, cname := some "T", deps := [] } }

def c10StP : ContState :=
  { emptyState with
      regs := [c10RegT],
      sessions := [("session-1", [])],
      sessionInfos := [("session-1", { id := "session-1", createdAt := 0, scope := none })] }

def c10StC : ContState :=
  { emptyState with
      sessions := [("session-1", [])],
      sessionInfos := [("session-1", { id := "session-1", createdAt := 0, scope := none })] }

/-- C10 counterexample: the claim predicts SessionNotFound whenever a
session id created by the child is passed to a resolve that delegates to
the parent; but ids are per-container counters, so here the parent also
has a live "session-1" and the resolve succeeds against the parent's
session instead of failing. -/
theorem c10_counterexample :
    (resolveChain 12 [{ state := c10StC }, { state := c10StP }] "T"
      { sessionId := some "session-1" }).2 = .ok 0 := by
  rfl

/-- Fixture for the C10 witness: a parent with the Scoped T and no
sessions at all. -/
def c10StP2 : ContState := { emptyState with regs := [c10RegT] }

/-- C10 witness: with no like-named parent session, the explicit child
session id fails with SessionNotFound and the ambient-only child session
fails with NoActiveSession. -/
theorem c10_amended_witness :
    resolveChain 3 [{ state := c10StC, inh := none }, { state := c10StP2, inh := none }]
        "T" { sessionId := some "session-1" } =
      ([{ state := c10StC, inh := none }, { state := c10StP2, inh := none }],
       .error (.sessionNotFound "session-1")) ∧
    resolveChain 2
        [{ state := { c10StC with store := some { sessionId := "session-1", scope := none } }, inh := none },
         { state := c10StP2, inh := none }] "T" {} =
      ([{ state := { c10StC with store := some { sessionId := "session-1", scope := none } }, inh := none },
        { state := c10StP2, inh := none }], .error (.noActiveSession "T")) := by
  constructor
  · exact (c10_amended 0 c10StC c10StP2 none "T" "session-1" c10RegT rfl rfl rfl rfl).1 rfl
  · exact (c10_amended 0 c10StC c10StP2 none "T" "session-1" c10RegT rfl rfl rfl rfl).2
      { sessionId := "session-1", scope := none } rfl

/-- C2 amended: with A and B registered as mutual constructor dependencies
(and a live session supplied so that Scoped lifecycles can participate),
resolve(A) fails before any instance is constructed — the state is returned
unchanged — with CircularDependency reporting the full path A -> B -> A,
for every combination of lifecycles except A Singleton with B Scoped, where
the lifetime-capture guard preempts the cycle check and the failure is
LifecycleViolation instead (see the counterexample). -/
theorem c2_amended (f : Nat) (st : ContState) (inh : Option InheritanceRules)
    (a b s : String) (ra rb : Registration) (cache : List (String × Nat))
    (hf : 11 ≤ f)
    (hab : a ≠ b)
    (hfa : findRegistration st a = some ra)
    (hfb : findRegistration st b = some rb)
    (hda : ra.target.deps = [b])
    (hdb : rb.target.deps = [a])
    (hsa : ra.singletonInstance = none)
    (hsb : rb.singletonInstance = none)
    (hstore : st.store = none)
    (hsess : mapGet st.sessions s = some cache)
    (hca : mapGet cache a = none)
    (hcb : mapGet cache b = none)
    (hinfo : (mapGet st.sessionInfos s).bind (fun i => i.scope) = none)
    (hguard : ¬(ra.lifecycle = Lifecycle.singleton ∧ rb.lifecycle = Lifecycle.scoped)) :
    resolveChain f [{ state := st, inh := inh }] a { sessionId := some s } =
      ([{ state := st, inh := inh }],
       .error (.circularDependency [a, b, a])) := by
  have htoka : ra.token = a := by
    have h' := hfa
    unfold findRegistration at h'
    simpa using List.find?_some h'
  have htokb : rb.token = b := by
    have h' := hfb
    unfold findRegistration at h'
    simpa using List.find?_some h'
  have hn : normalizeResolveOptions st { sessionId := some s } =
      ({ sessionId := some s } : ResolveOptions) := by
    unfold normalizeResolveOptions
    rw [hstore]
    dsimp only
    cases hI : mapGet st.sessionInfos s with
    | none => rfl
    | some info =>
      dsimp only
      cases hsc : info.scope with
      | none => rfl
      | some sc =>
        rw [hI] at hinfo
        simp [hsc] at hinfo
  -- innermost: resolving A again on path [a, b] trips the cycle check
  have step_a2 : ∀ g : Nat, ∀ plc : Option Lifecycle, 1 ≤ g →
      resolveRegistration g st ra { sessionId := some s } [a, b] plc =
        (st, .error (.circularDependency [a, b, a])) := by
    intro g plc hg
    obtain ⟨g', rfl⟩ : ∃ g', g = g' + 1 := ⟨g - 1, by omega⟩
    simp only [resolveRegistration, htoka]
    rw [if_pos (List.mem_cons_self a [b])]
    rfl
  have step_deps_b : ∀ g : Nat, ∀ plc : Lifecycle, 2 ≤ g →
      resolveDeps g st [a] { sessionId := some s } [a, b] plc =
        (st, .error (.circularDependency [a, b, a])) := by
    intro g plc hg
    obtain ⟨g', rfl⟩ : ∃ g', g = g' + 1 := ⟨g - 1, by omega⟩
    simp only [resolveDeps, hfa]
    rw [step_a2 g' (some plc) (by omega)]
  have step_inst_b : ∀ g : Nat, ∀ plc : Lifecycle, 3 ≤ g →
      instantiate g st rb { sessionId := some s } [a, b] plc =
        (st, .error (.circularDependency [a, b, a])) := by
    intro g plc hg
    obtain ⟨g', rfl⟩ : ∃ g', g = g' + 1 := ⟨g - 1, by omega⟩
    simp only [instantiate, hdb]
    rw [step_deps_b g' plc (by omega)]
  have step_blc : ∀ g : Nat, 5 ≤ g →
      resolveByLifecycle g st rb { sessionId := some s } [a, b] =
        (st, .error (.circularDependency [a, b, a])) := by
    intro g hg
    obtain ⟨g', rfl⟩ : ∃ g', g = g' + 1 := ⟨g - 1, by omega⟩
    cases hlb : rb.lifecycle
    · simp only [resolveByLifecycle, hlb]
      obtain ⟨g'', rfl⟩ : ∃ g'', g' = g'' + 1 := ⟨g' - 1, by omega⟩
      simp only [resolveSingleton, hsb]
      rw [step_inst_b g'' rb.lifecycle (by omega)]
    · simp only [resolveByLifecycle, hlb]
      obtain ⟨g'', rfl⟩ : ∃ g'', g' = g'' + 1 := ⟨g' - 1, by omega⟩
      simp only [resolveScoped, hsess, hinfo, htokb, hcb]
      dsimp only [scopeConflict]
      rw [if_neg (by simp)]
      rw [if_pos (by simp)]
      rw [step_inst_b g'' rb.lifecycle (by omega)]
    · simp only [resolveByLifecycle, hlb]
      rw [step_inst_b g' Lifecycle.transient (by omega)]
  have step_reg_b : ∀ g : Nat, 6 ≤ g →
      resolveRegistration g st rb { sessionId := some s } [a] (some ra.lifecycle) =
        (st, .error (.circularDependency [a, b, a])) := by
    intro g hg
    obtain ⟨g', rfl⟩ : ∃ g', g = g' + 1 := ⟨g - 1, by omega⟩
    simp only [resolveRegistration, htokb]
    rw [if_neg (by simp [List.mem_singleton]; exact fun he => hab he.symm)]
    rw [if_neg (fun hviol => hguard ⟨by injection hviol.1, hviol.2⟩)]
    have : [a] ++ [b] = [a, b] := rfl
    rw [this]
    exact step_blc g' (by omega)
  have step_deps_a : ∀ g : Nat, 7 ≤ g →
      resolveDeps g st [b] { sessionId := some s } [a] ra.lifecycle =
        (st, .error (.circularDependency [a, b, a])) := by
    intro g hg
    obtain ⟨g', rfl⟩ : ∃ g', g = g' + 1 := ⟨g - 1, by omega⟩
    simp only [resolveDeps, hfb]
    rw [step_reg_b g' (by omega)]
  have step_inst_a : ∀ g : Nat, 8 ≤ g →
      instantiate g st ra { sessionId := some s } [a] ra.lifecycle =
        (st, .error (.circularDependency [a, b, a])) := by
    intro g hg
    obtain ⟨g', rfl⟩ : ∃ g', g = g' + 1 := ⟨g - 1, by omega⟩
    simp only [instantiate, hda]
    rw [step_deps_a g' (by omega)]
  have step_alc : ∀ g : Nat, 10 ≤ g →
      resolveByLifecycle g st ra { sessionId := some s } [a] =
        (st, .error (.circularDependency [a, b, a])) := by
    intro g hg
    obtain ⟨g', rfl⟩ : ∃ g', g = g' + 1 := ⟨g - 1, by omega⟩
    cases hla : ra.lifecycle
    · simp only [resolveByLifecycle, hla]
      obtain ⟨g'', rfl⟩ : ∃ g'', g' = g'' + 1 := ⟨g' - 1, by omega⟩
      simp only [resolveSingleton, hsa]
      rw [show instantiate g'' st ra { sessionId := some s } [a] ra.lifecycle =
        (st, .error (.circularDependency [a, b, a])) from step_inst_a g'' (by omega)]
    · simp only [resolveByLifecycle, hla]
      obtain ⟨g'', rfl⟩ : ∃ g'', g' = g'' + 1 := ⟨g' - 1, by omega⟩
      simp only [resolveScoped, hsess, hinfo, htoka, hca]
      dsimp only [scopeConflict]
      rw [if_neg (by simp)]
      rw [if_pos (by simp)]
      rw [show instantiate g'' st ra { sessionId := some s } [a] ra.lifecycle =
        (st, .error (.circularDependency [a, b, a])) from step_inst_a g'' (by omega)]
    · simp only [resolveByLifecycle, hla]
      rw [← hla]
      rw [show instantiate g' st ra { sessionId := some s } [a] ra.lifecycle =
        (st, .error (.circularDependency [a, b, a])) from step_inst_a g' (by omega)]
  have step_reg_a : ∀ g : Nat, 11 ≤ g →
      resolveRegistration g st ra { sessionId := some s } [] none =
        (st, .error (.circularDependency [a, b, a])) := by
    intro g hg
    obtain ⟨g', rfl⟩ : ∃ g', g = g' + 1 := ⟨g - 1, by omega⟩
    simp only [resolveRegistration, List.not_mem_nil, if_false, List.nil_append, htoka]
    rw [if_neg (by simp)]
    exact step_alc g' (by omega)
  simp only [resolveChain, hfa, hn, step_reg_a f hf]

/-- Fixtures for C2: mutually dependent A and B.  In the counterexample A
is Singleton and B is Scoped; in the witness both are Singleton. -/
def c2RegA : Registration :=
  { token := "A", type := ServiceType.service, lifecycle := Lifecycle.singleton,
    target := { cid := 1, cname := some "A", deps := ["B"] } }

def c2RegB : Registration :=
  { token := "B", type := ServiceType.service, lifecycle := Lifecycle.scoped,
    target := { cid := 2, cname := some "B", deps := ["A"] } }

def c2St : ContState :=
  { emptyState with
      regs := [c2RegA, c2RegB],
      sessions := [("s", [])],
      sessionInfos := [("s", { id := "s", createdAt := 0, scope := none })] }

/-- C2 counterexample: A and B mutually dependent, A Singleton and B
Scoped, with a live session — resolve(A) fails with LifecycleViolation
(the lifetime-capture guard preempts the cycle check), not with the
CircularDependency the claim promises for every such pair. -/
theorem c2_counterexample :
    (resolveChain 20 [{ state := c2St }] "A" { sessionId := some "s" }).2 =
      .error (.lifecycleViolation "A" "B") := by
  rfl

def c2RegB2 : Registration :=
  { token := "B", type := ServiceType.service, lifecycle := Lifecycle.singleton,
    target := { cid := 2, cname := some "B", deps := ["A"] } }

def c2StW : ContState := { c2St with regs := [c2RegA, c2RegB2] }

/-- C2 witness: with both A and B Singleton (the spec's canonical
scenario), resolve(A) fails with CircularDependency A -> B -> A and the
state — in particular the construction log — is unchanged. -/
theorem c2_amended_witness :
    resolveChain 11 [{ state := c2StW, inh := none }] "A" { sessionId := some "s" } =
      ([{ state := c2StW, inh := none }],
       .error (.circularDependency ["A", "B", "A"])) :=
  c2_amended 11 c2StW none "A" "B" "s" c2RegA c2RegB2 [] (by omega) (by decide)
    rfl rfl rfl rfl rfl rfl rfl rfl rfl rfl rfl (by decide)

/-! ### Scoped-resolution unfolding helpers -/

/-- With no ambient store and no scope tag on the session, an options
record carrying only a session id passes normalizeResolveOptions
unchanged. -/
theorem normalize_id_of_store_none (st : ContState) (sid : String)
    (hstore : st.store = none)
    (hinfo : (mapGet st.sessionInfos sid).bind (fun i => i.scope) = none) :
    normalizeResolveOptions st { sessionId := some sid } =
      ({ sessionId := some sid } : ResolveOptions) := by
  unfold normalizeResolveOptions
  rw [hstore]
  dsimp only
  cases hI : mapGet st.sessionInfos sid with
  | none => rfl
  | some info =>
    dsimp only
    cases hsc : info.scope with
    | none => rfl
    | some sc =>
      rw [hI] at hinfo
      simp [hsc] at hinfo

theorem mapGet_sessionSet_self (st : ContState) (sid tok : String) (v : Nat) :
    mapGet (sessionSet st sid tok v).sessions sid =
      (mapGet st.sessions sid).map (fun c => mapSet c tok v) := by
  unfold sessionSet
  show mapGet (st.sessions.map fun p => if p.1 = sid then (p.1, mapSet p.2 tok v) else p) sid = _
  induction st.sessions with
  | nil => rfl
  | cons p rest ih =>
    by_cases hp : p.1 = sid
    · rw [List.map_cons, if_pos hp,
        mapGet_cons_pos ((p.1, mapSet p.2 tok v))
          (rest.map (fun p => if p.1 = sid then (p.1, mapSet p.2 tok v) else p)) sid hp,
        mapGet_cons_pos p rest sid hp]
      rfl
    · rw [List.map_cons, if_neg hp,
        mapGet_cons_neg p
          (rest.map (fun p => if p.1 = sid then (p.1, mapSet p.2 tok v) else p)) sid hp,
        mapGet_cons_neg p rest sid hp]
      exact ih

theorem mapGet_sessionSet_ne (st : ContState) (sid tok sid' : String) (v : Nat)
    (h : sid' ≠ sid) :
    mapGet (sessionSet st sid tok v).sessions sid' = mapGet st.sessions sid' := by
  unfold sessionSet
  show mapGet (st.sessions.map fun p => if p.1 = sid then (p.1, mapSet p.2 tok v) else p) sid' = _
  induction st.sessions with
  | nil => rfl
  | cons p rest ih =>
    by_cases hp : p.1 = sid
    · have hp' : p.1 ≠ sid' := fun he => h (he.symm.trans hp)
      rw [List.map_cons, if_pos hp, mapGet_cons_neg _ _ _ (by simpa [hp] using hp'),
        mapGet_cons_neg _ _ _ hp']
      exact ih
    · by_cases hp' : p.1 = sid'
      · rw [List.map_cons, if_neg hp, mapGet_cons_pos _ _ _ hp', mapGet_cons_pos _ _ _ hp']
      · rw [List.map_cons, if_neg hp, mapGet_cons_neg _ _ _ hp', mapGet_cons_neg _ _ _ hp']
        exact ih

/-- Lookup after a shape-preserving resolution: the same token still finds
a registration carrying the same token, lifecycle and target. -/
theorem findRegistration_of_regSig_eq (st st' : ContState) (tok : String) (reg : Registration)
    (hsig : regSig st' = regSig st) (hfind : findRegistration st tok = some reg) :
    ∃ reg', findRegistration st' tok = some reg' ∧ reg'.token = reg.token ∧
      reg'.lifecycle = reg.lifecycle ∧ reg'.target = reg.target := by
  have h := find?_respects_regSig tok st'.regs st.regs hsig
  have hfind' : st.regs.find? (fun r => r.token == tok) = some reg := hfind
  rw [hfind'] at h
  cases hf' : st'.regs.find? (fun r => r.token == tok) with
  | none => rw [hf'] at h; cases h
  | some reg' =>
    rw [hf'] at h
    have hrs : rSig reg' = rSig reg := by simpa using h
    unfold rSig at hrs
    refine ⟨reg', hf', ?_, ?_, ?_⟩
    · exact congrArg (fun q => q.1) hrs
    · exact congrArg (fun q => q.2.1) hrs
    · exact congrArg (fun q => q.2.2) hrs

/-- Unfolding helper: one-container resolve of a scoped token under an
explicit session id reduces to resolveScoped. -/
theorem resolveChain_scoped_entry (g : Nat) (st : ContState) (inh : Option InheritanceRules)
    (tok sid : String) (reg : Registration)
    (hfind : findRegistration st tok = some reg)
    (hlc : reg.lifecycle = Lifecycle.scoped)
    (hstore : st.store = none)
    (hinfo : (mapGet st.sessionInfos sid).bind (fun i => i.scope) = none) :
    resolveChain (g + 2) [{ state := st, inh := inh }] tok { sessionId := some sid } =
      (({ state := (resolveScoped g st reg sid { sessionId := some sid } [reg.token]).1,
          inh := inh } : Frame) :: [],
       (resolveScoped g st reg sid { sessionId := some sid } [reg.token]).2) := by
  have hn := normalize_id_of_store_none st sid hstore hinfo
  have h2 : resolveByLifecycle (g + 1) st reg { sessionId := some sid } [reg.token] =
      resolveScoped g st reg sid { sessionId := some sid } [reg.token] := by
    simp only [resolveByLifecycle, hlc]
  have h3 : resolveRegistration (g + 2) st reg { sessionId := some sid } [] none =
      resolveScoped g st reg sid { sessionId := some sid } [reg.token] := by
    rw [show g + 2 = (g + 1) + 1 from rfl]
    simp only [resolveRegistration, List.not_mem_nil, if_false, List.nil_append]
    rw [if_neg (by simp)]
    exact h2
  simp only [resolveChain, hfind, hn, h3]

/-- Unfolding helper: resolveScoped on a live session whose cache misses
the token runs instantiate and stores the result in that session's cache. -/
theorem resolveScoped_miss (g : Nat) (st : ContState) (reg : Registration)
    (sid : String) (cache : List (String × Nat)) (path : List String)
    (hs : mapGet st.sessions sid = some cache)
    (hc : mapGet cache reg.token = none)
    (hinfo : (mapGet st.sessionInfos sid).bind (fun i => i.scope) = none) :
    resolveScoped (g + 1) st reg sid { sessionId := some sid } path =
      (match instantiate g st reg { sessionId := some sid } path reg.lifecycle with
       | (st2, .ok v) => (sessionSet st2 sid reg.token v, .ok v)
       | (st2, .error e) => (st2, .error e)) := by
  simp only [resolveScoped, hs, hinfo, hc]
  simp [scopeConflict]

/-- Unfolding helper: resolveScoped on a live session whose cache holds the
token returns the cached instance with no state change. -/
theorem resolveScoped_hit (g : Nat) (st : ContState) (reg : Registration)
    (sid : String) (cache : List (String × Nat)) (v : Nat) (path : List String)
    (hs : mapGet st.sessions sid = some cache)
    (hc : mapGet cache reg.token = some v) :
    resolveScoped (g + 1) st reg sid { sessionId := some sid } path = (st, .ok v) := by
  simp only [resolveScoped, hs, hc]
  have hconf : scopeConflict none ((mapGet st.sessionInfos sid).bind fun i => i.scope) = false := by
    cases ((mapGet st.sessionInfos sid).bind fun i => i.scope) <;> rfl
  rw [hconf]
  simp

/-- C4: scoped lifecycle — after a first resolution of a scoped token under
session S1 (which instantiates and stores in S1's cache, yielding the
post-state st1), a repeated resolve under S1 returns the identical cached
instance with no further state change, while a resolve under a different
session id whose cache does not yet hold the token instantiates a fresh,
distinct instance. -/
theorem c4_scoped_isolation (f g : Nat) (st : ContState) (inh : Option InheritanceRules)
    (tok s1 s2 : String) (reg : Registration) (cache1 : List (String × Nat))
    (hfind : findRegistration st tok = some reg)
    (hlc : reg.lifecycle = Lifecycle.scoped)
    (hstore : st.store = none)
    (hs1 : mapGet st.sessions s1 = some cache1)
    (hc1 : mapGet cache1 tok = none)
    (hi1 : (mapGet st.sessionInfos s1).bind (fun i => i.scope) = none)
    (hwf : WF st)
    (st1 : ContState) (v1 : Nat)
    (hrun1 : resolveChain (f + 3) [{ state := st, inh := inh }] tok { sessionId := some s1 } =
      ([{ state := st1, inh := inh }], .ok v1)) :
    (resolveChain (g + 3) [{ state := st1, inh := inh }] tok { sessionId := some s1 } =
      ([{ state := st1, inh := inh }], .ok v1)) ∧
    (∀ v2 st2 cache2,
      mapGet st1.sessions s2 = some cache2 →
      mapGet cache2 tok = none →
      (mapGet st1.sessionInfos s2).bind (fun i => i.scope) = none →
      resolveChain (g + 4) [{ state := st1, inh := inh }] tok { sessionId := some s2 } =
        ([{ state := st2, inh := inh }], .ok v2) →
      v1 ≠ v2) := by
  have htok : reg.token = tok := by
    have h' := hfind
    unfold findRegistration at h'
    simpa using List.find?_some h'
  rw [show f + 3 = (f + 1) + 2 from rfl,
    resolveChain_scoped_entry (f + 1) st inh tok s1 reg hfind hlc hstore hi1,
    resolveScoped_miss f st reg s1 cache1 [reg.token] hs1 (by rw [htok]; exact hc1) hi1]
    at hrun1
  cases hinst : instantiate f st reg { sessionId := some s1 } [reg.token] reg.lifecycle with
  | mk stI rI =>
    rw [hinst] at hrun1
    cases rI with
    | error e => simp at hrun1
    | ok w =>
      injection hrun1 with h1 h2
      injection h1 with h11 h12
      injection h11 with hstEq hinhEq
      injection h2 with hwv
      have hvw : v1 = w := hwv.symm
      subst hvw
      subst hstEq
      have hpres : Preserves st stI :=
        (presAll f).2.2.2.2.1 st reg _ [reg.token] reg.lifecycle stI (.ok v1) hinst
      have hfresh := (freshAll f).2.2.2.2.1 st reg { sessionId := some s1 } [reg.token]
        reg.lifecycle stI (.ok v1) hwf hinst
      have hv1lt : v1 < stI.nextId := hfresh.2 v1 rfl
      have hsig1 : regSig (sessionSet stI s1 reg.token v1) = regSig st := by
        show regSig stI = regSig st
        exact hpres.1
      obtain ⟨reg1, hfind1, htok1, hlc1, -⟩ :=
        findRegistration_of_regSig_eq st (sessionSet stI s1 reg.token v1) tok reg hsig1 hfind
      have htok1t : reg1.token = tok := htok1.trans htok
      have hlc1s : reg1.lifecycle = Lifecycle.scoped := hlc1.trans hlc
      have hstore1 : (sessionSet stI s1 reg.token v1).store = none := by
        show stI.store = none
        rw [hpres.2.2.2.1]
        exact hstore
      have hinfos1 : (sessionSet stI s1 reg.token v1).sessionInfos = st.sessionInfos := by
        show stI.sessionInfos = st.sessionInfos
        exact hpres.2.1
      have hkeys : stI.sessions.map Prod.fst = st.sessions.map Prod.fst := hpres.2.2.2.2.1
      have hsomeI : (mapGet stI.sessions s1).isSome := by
        apply mapGet_isSome_of_keys_eq s1 st.sessions stI.sessions hkeys.symm
        rw [hs1]
        rfl
      obtain ⟨cacheI, hcacheI⟩ := Option.isSome_iff_exists.mp hsomeI
      have hcs1 : mapGet (sessionSet stI s1 reg.token v1).sessions s1 =
          some (mapSet cacheI reg.token v1) := by
        rw [mapGet_sessionSet_self, hcacheI]
        rfl
      have hhit : mapGet (mapSet cacheI reg.token v1) reg1.token = some v1 := by
        rw [htok1]
        exact mapGet_mapSet_self cacheI reg.token v1
      constructor
      · rw [show g + 3 = (g + 1) + 2 from rfl,
          resolveChain_scoped_entry (g + 1) (sessionSet stI s1 reg.token v1) inh tok s1 reg1
            hfind1 hlc1s hstore1 (by rw [hinfos1]; exact hi1),
          resolveScoped_hit g (sessionSet stI s1 reg.token v1) reg1 s1
            (mapSet cacheI reg.token v1) v1 [reg1.token] hcs1 hhit]
      · intro v2 st2 cache2 hs2 hc2 hi2 hrun2
        rw [show g + 4 = (g + 2) + 2 from rfl,
          resolveChain_scoped_entry (g + 2) (sessionSet stI s1 reg.token v1) inh tok s2 reg1
            hfind1 hlc1s hstore1 hi2,
          resolveScoped_miss (g + 1) (sessionSet stI s1 reg.token v1) reg1 s2 cache2
            [reg1.token] hs2 (by rw [htok1t]; exact hc2) hi2] at hrun2
        cases hinst2 : instantiate (g + 1) (sessionSet stI s1 reg.token v1) reg1
            { sessionId := some s2 } [reg1.token] reg1.lifecycle with
        | mk stJ rJ =>
          rw [hinst2] at hrun2
          cases rJ with
          | error e => simp at hrun2
          | ok w2 =>
            injection hrun2 with hr1 hr2
            injection hr2 with hw2
            subst hw2
            simp only [instantiate] at hinst2
            cases hdeps : resolveDeps g (sessionSet stI s1 reg.token v1)
                reg1.target.deps { sessionId := some s2 } [reg1.token] reg1.lifecycle with
            | mk stD rD =>
              rw [hdeps] at hinst2
              cases rD with
              | error e =>
                simp at hinst2
              | ok vs =>
                injection hinst2 with hj1 hj2
                injection hj2 with hval
                have hmono : (sessionSet stI s1 reg.token v1).nextId ≤ stD.nextId :=
                  ((presAll g).2.2.2.2.2 _ _ _ _ _ stD (.ok vs) hdeps).2.2.2.2.2
                have hnid : (sessionSet stI s1 reg.token v1).nextId = stI.nextId := rfl
                intro hcontra
                rw [hnid] at hmono
                omega

/-- Fixtures for the C4 witness: a dependency-free Scoped registration R in
a container with two live sessions s1 and s2, both with empty instance
caches and no scope restriction. -/
def c4Reg : Registration :=
  { token := "R", type := ServiceType.service, lifecycle := Lifecycle.scoped,
    target := { cid := 9, cname := some "R", deps := [] } }

def c4St : ContState :=
  { emptyState with
      regs := [c4Reg],
      sessions := [("s1", []), ("s2", [])],
      sessionInfos := [("s1", { id := "s1", createdAt := 0, scope := none }),
                       ("s2", { id := "s2", createdAt := 0, scope := none })] }

/-- The container state after the first resolve of R under session s1. -/
def c4St1 : ContState :=
  headState (resolveChain 5 [{ state := c4St, inh := none }] "R" { sessionId := some "s1" }).1

/-- The container state after the subsequent resolve of R under session s2. -/
def c4St2 : ContState :=
  headState (resolveChain 5 [{ state := c4St1, inh := none }] "R" { sessionId := some "s2" }).1

theorem c4WF : WF c4St := by
  constructor
  · intro r hr v hv
    simp only [c4St, emptyState] at hr
    rcases List.mem_singleton.mp hr with rfl
    simp [c4Reg] at hv
  · intro p hp q hq
    simp only [c4St, emptyState, List.mem_cons] at hp
    rcases hp with rfl | rfl | hp
    · simp at hq
    · simp at hq
    · simp at hp

/-- C4 witness: with the dependency-free Scoped R and sessions s1, s2, the
first resolve under s1 yields instance 0 and post-state c4St1; from there a
repeated resolve under s1 returns the cached instance 0 with no state
change, while a resolve under s2 instantiates the distinct fresh instance 1. -/
theorem c4_scoped_isolation_witness :
    resolveChain 4 [{ state := c4St1, inh := none }] "R" { sessionId := some "s1" } =
      ([{ state := c4St1, inh := none }], Except.ok 0) ∧
    resolveChain 5 [{ state := c4St1, inh := none }] "R" { sessionId := some "s2" } =
      ([{ state := c4St2, inh := none }], Except.ok 1) ∧
    (0 : Nat) ≠ 1 := by
  have hrun2 : resolveChain 5 [{ state := c4St1, inh := none }] "R" { sessionId := some "s2" } =
      ([{ state := c4St2, inh := none }], Except.ok 1) := by rfl
  have h := c4_scoped_isolation 2 1 c4St none "R" "s1" "s2" c4Reg []
    rfl rfl rfl rfl rfl rfl c4WF c4St1 0 (by rfl)
  exact ⟨h.1, hrun2, h.2 1 c4St2 [] rfl rfl rfl hrun2⟩

end DI
